import Mathlib

/-!
# Presence Minimap Card: coordinate transforms, colour resolution, shape builders

A shallow embedding of `src/presence-minimap-card.js`.

Numbers.  JavaScript numbers are modelled exactly: the geometry is written once,
over any carrier `ν` that has the arithmetic operations, and is used at two
carriers:

* an ordered field `α` (exact arithmetic, no rounding, no infinities), where the
  algebraic statements about the transforms are proved;
* `JSNum α`, the same values extended with `NaN`, which is what `Number(...)`
  yields for a reading such as `'unavailable'`; the render pass runs here.

The host's `Math` object (`PI`, `cos`, `sin`, `sqrt`), `Number(...)` applied to a
string and the number-to-string conversion of template literals are not code of
the repository; they are parameters (`MathLib`, `Host`).
-/

namespace PresenceMinimap

/-! ## Numbers -/

/-- A JavaScript number: an exact value, or `NaN`. -/
inductive JSNum (α : Type) where
  | num (a : α)
  | nan
  deriving DecidableEq, Repr

namespace JSNum

variable {α : Type}

/-- Binary arithmetic: `NaN` in either operand gives `NaN`. -/
def lift₂ (f : α → α → α) : JSNum α → JSNum α → JSNum α
  | num a, num b => num (f a b)
  | _, _ => nan

/-- Unary arithmetic: `NaN` gives `NaN`. -/
def lift₁ (f : α → α) : JSNum α → JSNum α
  | num a => num (f a)
  | nan => nan

instance [Zero α] : Zero (JSNum α) := ⟨num 0⟩
instance [One α] : One (JSNum α) := ⟨num 1⟩
instance [NatCast α] : NatCast (JSNum α) := ⟨fun n => num n⟩
instance [IntCast α] : IntCast (JSNum α) := ⟨fun n => num n⟩
instance [OfScientific α] : OfScientific (JSNum α) :=
  ⟨fun m s e => num (OfScientific.ofScientific m s e)⟩
instance [Add α] : Add (JSNum α) := ⟨lift₂ (· + ·)⟩
instance [Sub α] : Sub (JSNum α) := ⟨lift₂ (· - ·)⟩
instance [Mul α] : Mul (JSNum α) := ⟨lift₂ (· * ·)⟩
instance [Div α] : Div (JSNum α) := ⟨lift₂ (· / ·)⟩
instance [Neg α] : Neg (JSNum α) := ⟨lift₁ (- ·)⟩

/-- The comparison `a < b` of JavaScript: false when an operand is `NaN`. -/
instance [LT α] : LT (JSNum α) :=
  ⟨fun a b => match a, b with
    | num x, num y => x < y
    | _, _ => False⟩

instance [LT α] [DecidableRel (fun a b : α => a < b)] :
    DecidableRel (fun a b : JSNum α => a < b) := fun a b =>
  match a, b with
  | num x, num y => inferInstanceAs (Decidable (x < y))
  | num _, nan => isFalse (fun h => h)
  | nan, _ => isFalse (fun h => by cases h)

/-- The test `isNaN(v)`. -/
def isNaN : JSNum α → Bool
  | nan => true
  | num _ => false

/-- The test `v === 0` (true for `0` and `-0`, false for `NaN`). -/
def isZero [Zero α] [DecidableEq α] : JSNum α → Bool
  | num a => decide (a = 0)
  | nan => false

/-- Truthiness of a number: every number except `0`, `-0` and `NaN`. -/
def truthy [Zero α] [DecidableEq α] : JSNum α → Bool
  | num a => decide (a ≠ 0)
  | nan => false

/-- The expression `v || d` for a number `v` that may also be `undefined`. -/
def orDefault [Zero α] [DecidableEq α] (v : Option (JSNum α)) (d : JSNum α) : JSNum α :=
  match v with
  | some x => if truthy x then x else d
  | none => d

end JSNum

/-- The host's `Math` object, as far as the card uses it.  The language fixes its
functions at zero (`cos 0 = 1`, `sin 0 = 0`, `sqrt 0 = 0`) and leaves the others
to the implementation; statements that need a value at zero assume it. -/
structure MathLib (ν : Type) where
  PI : ν
  cos : ν → ν
  sin : ν → ν
  sqrt : ν → ν

/-- The `Math` object on numbers with `NaN`: every function maps `NaN` to `NaN`. -/
def MathLib.withNaN {α : Type} (M : MathLib α) : MathLib (JSNum α) where
  PI := JSNum.num M.PI
  cos := JSNum.lift₁ M.cos
  sin := JSNum.lift₁ M.sin
  sqrt := JSNum.lift₁ M.sqrt

/-! ## Coordinate transform engine (`_render`, lines 298-361) -/

/-- The per-sensor constants the two transforms close over. -/
structure Mount (ν : Type) where
  sensorX : ν
  sensorY : ν
  floorplanRotation : ν
  sensorScale : ν
  mirrorX : Bool
  mirrorY : Bool
  installationAngle : ν

section Geometry

variable {ν : Type} [Add ν] [Sub ν] [Mul ν] [Div ν] [Neg ν] [NatCast ν]

/-- The constant `fpRad = floorplanRotation * Math.PI / 180`. -/
def fpRad (M : MathLib ν) (s : Mount ν) : ν := s.floorplanRotation * M.PI / 180

/-- The closure `transformData`: mirror, scale, floorplan rotation, translation. -/
def transformData (M : MathLib ν) (s : Mount ν) (localX localY : ν) : ν × ν :=
  let fpCos := M.cos (fpRad M s)
  let fpSin := M.sin (fpRad M s)
  let x := if s.mirrorX then -localX else localX
  let y := if s.mirrorY then -localY else localY
  let x := x * s.sensorScale
  let y := y * s.sensorScale
  let fx := x * fpCos + y * fpSin
  let fy := x * fpSin - y * fpCos
  (s.sensorX + fx, s.sensorY + fy)

/-- The closure `transformArc`: as `transformData`, with the installation angle
applied between scaling and the floorplan rotation. -/
def transformArc (M : MathLib ν) (s : Mount ν) (localX localY : ν) : ν × ν :=
  let fpCos := M.cos (fpRad M s)
  let fpSin := M.sin (fpRad M s)
  let x := if s.mirrorX then -localX else localX
  let y := if s.mirrorY then -localY else localY
  let x := x * s.sensorScale
  let y := y * s.sensorScale
  let iaRad := -s.installationAngle * M.PI / 180
  let iaCos := M.cos iaRad
  let iaSin := M.sin iaRad
  let rx := x * iaCos + y * iaSin
  let ry := -x * iaSin + y * iaCos
  let x := rx
  let y := ry
  let fx := x * fpCos + y * fpSin
  let fy := x * fpSin - y * fpCos
  (s.sensorX + fx, s.sensorY + fy)

/-- The corner list of a zone or mask rectangle, each corner through
`transformData` (lines 415-421 and 443-449). -/
def rectPoints (M : MathLib ν) (s : Mount ν) (bx bY ex eY : ν) : List (ν × ν) :=
  [(bx, bY), (bx, eY), (ex, eY), (ex, bY)].map
    (fun c => transformData M s c.1 c.2)

/-! ## Coverage arc (lines 47 and 367-390) -/

/-- The constant `COVERAGE_STEPS`. -/
def COVERAGE_STEPS : List ℤ :=
  [5500, 4500, 4000, 3000, 2000, 1000, 0, -1000, -2000, -3000, -4000, -4500, -5500]

variable [Zero ν] [IntCast ν] [LT ν] [DecidableRel (fun a b : ν => a < b)]

/-- The local `sx = step * distanceRatio`, with `distanceRatio = maxDistance / 7500`. -/
def stepX (maxDistance : ν) (step : ℤ) : ν :=
  (step : ν) * (maxDistance / 7500)

/-- The value pushed on `arcY` for one step: `val > 0 ? Math.sqrt(val) : 0`
with `val = maxDistance * maxDistance - sx * sx`. -/
def stepY (M : MathLib ν) (maxDistance : ν) (step : ℤ) : ν :=
  let sx := stepX maxDistance step
  let val := maxDistance * maxDistance - sx * sx
  if 0 < val then M.sqrt val else 0

/-- The array `arcX` once the loop and the final `push` have run. -/
def arcX (M : MathLib ν) (maxDistance : ν) : List ν :=
  [0, maxDistance * M.sin (M.PI / 180 * 60)]
    ++ COVERAGE_STEPS.map (stepX maxDistance)
    ++ [-maxDistance * M.sin (M.PI / 180 * 60), 0]

/-- The array `arcY` once the loop and the final `push` have run. -/
def arcY (M : MathLib ν) (maxDistance : ν) : List ν :=
  [0, maxDistance * M.cos (M.PI / 180 * 60)]
    ++ COVERAGE_STEPS.map (stepY M maxDistance)
    ++ [maxDistance * M.cos (M.PI / 180 * 60), 0]

/-- The local-space vertices `(arcX[i], arcY[i])` of the coverage polygon. -/
def arcVertices (M : MathLib ν) (maxDistance : ν) : List (ν × ν) :=
  (arcX M maxDistance).zip (arcY M maxDistance)

/-- The floorplan-space points of the coverage polygon: every vertex through
`transformArc` (lines 386-390). -/
def coveragePoints (M : MathLib ν) (s : Mount ν) (maxDistance : ν) : List (ν × ν) :=
  (arcVertices M maxDistance).map (fun v => transformArc M s v.1 v.2)

end Geometry

/-! ## Colour resolver (lines 9-45) -/

/-- A resolved colour: the object with a `fill` and a `stroke` paint string. -/
structure Color where
  fill : String
  stroke : String
  deriving DecidableEq, Repr

/-- The values a colour option of the configuration can hold: nothing
(`undefined` or `null`), a string, or a mapping whose `fill` and `stroke`
properties may each be set. -/
inductive ColorInput where
  | absent
  | str (s : String)
  | obj (fill stroke : Option String)
  deriving DecidableEq, Repr

/-- The constant `DEFAULT_ZONE_COLORS`. -/
def DEFAULT_ZONE_COLORS : List Color :=
  [ ⟨"rgba(20,200,0,0.10)", "rgba(20,200,0,0.4)"⟩,
    ⟨"rgba(200,0,255,0.10)", "rgba(200,0,255,0.4)"⟩,
    ⟨"rgba(200,120,55,0.10)", "rgba(200,120,55,0.4)"⟩,
    ⟨"rgba(255,0,0,0.15)", "rgba(255,0,0,0.4)"⟩ ]

/-- The constant `DEFAULT_MASK_COLOR`. -/
def DEFAULT_MASK_COLOR : Color := ⟨"rgba(20,20,20,0.12)", "rgba(20,20,20,0.3)"⟩

/-- The constant `DEFAULT_COVERAGE_COLOR`. -/
def DEFAULT_COVERAGE_COLOR : Color := ⟨"rgba(168,216,234,0.25)", "rgba(168,216,234,0.6)"⟩

/-- White space and line terminators, the characters `String.prototype.trim` strips. -/
def isJSWhitespace (c : Char) : Bool :=
  let n := c.toNat
  n = 0x09 || n = 0x0A || n = 0x0B || n = 0x0C || n = 0x0D || n = 0x20 || n = 0xA0
    || n = 0x1680 || (0x2000 ≤ n && n ≤ 0x200A) || n = 0x2028 || n = 0x2029
    || n = 0x202F || n = 0x205F || n = 0x3000 || n = 0xFEFF

/-- The method `trim`, on the characters of a string. -/
def jsTrim (cs : List Char) : List Char :=
  ((cs.dropWhile isJSWhitespace).reverse.dropWhile isJSWhitespace).reverse

/-- The class `[0-9a-f]` under the flag `i`. -/
def isHexDigit (c : Char) : Bool :=
  let n := c.toNat
  (48 ≤ n && n ≤ 57) || (97 ≤ n && n ≤ 102) || (65 ≤ n && n ≤ 70)

/-- The value of a hexadecimal digit. -/
def hexVal (c : Char) : Nat :=
  let n := c.toNat
  if 48 ≤ n && n ≤ 57 then n - 48
  else if 97 ≤ n && n ≤ 102 then n - 87
  else n - 55

/-- The match `str.match(/^#([0-9a-f]{3,8})$/i)`: the captured group, when the
whole string is `#` followed by three to eight hexadecimal digits. -/
def matchHex (cs : List Char) : Option (List Char) :=
  match cs with
  | '#' :: h => if 3 ≤ h.length ∧ h.length ≤ 8 ∧ h.all isHexDigit then some h else none
  | _ => none

/-- The call `parseInt(s, 16)` on a string of hexadecimal digits: the value of
its digits, `NaN` (here `none`) when there is none.  The sign, prefix and white
space that `parseInt` also accepts cannot occur in the captured group. -/
def parseInt16 (cs : List Char) : Option Nat :=
  match cs.takeWhile isHexDigit with
  | [] => none
  | ds => some (ds.foldl (fun acc c => 16 * acc + hexVal c) 0)

/-- The method `slice(i, j)` for `0 ≤ i ≤ j`. -/
def slice (cs : List Char) (i j : Nat) : List Char := (cs.drop i).take (j - i)

/-- A channel inside a template literal: its decimal digits, or `NaN`. -/
def channelStr : Option Nat → String
  | some n => toString n
  | none => "NaN"

/-- The string `h[i]`. -/
def charAt (cs : List Char) (i : Nat) : List Char := (cs.drop i).take 1

/-- Lines 31-42: the colour built from the captured hexadecimal digits `h`.  The
two alpha values only ever reach a template literal, so they are converted by
the host's number-to-string conversion `toStr`. -/
def hexToColor {A : Type} (toStr : A → String) (h : List Char)
    (fillAlpha strokeAlpha : A) : Color :=
  let rgb : Option Nat × Option Nat × Option Nat :=
    if h.length = 3 then
      (parseInt16 (charAt h 0 ++ charAt h 0),
       parseInt16 (charAt h 1 ++ charAt h 1),
       parseInt16 (charAt h 2 ++ charAt h 2))
    else
      (parseInt16 (slice h 0 2), parseInt16 (slice h 2 4), parseInt16 (slice h 4 6))
  let r := channelStr rgb.1
  let g := channelStr rgb.2.1
  let b := channelStr rgb.2.2
  ⟨"rgba(" ++ r ++ "," ++ g ++ "," ++ b ++ "," ++ toStr fillAlpha ++ ")",
   "rgba(" ++ r ++ "," ++ g ++ "," ++ b ++ "," ++ toStr strokeAlpha ++ ")"⟩

/-- Lines 28-44, on the string `String(input)`. -/
def parseColorString {A : Type} (toStr : A → String) (s : String)
    (fillAlpha strokeAlpha : A) : Color :=
  let str := jsTrim s.data
  match matchHex str with
  | some h => hexToColor toStr h fillAlpha strokeAlpha
  | none => ⟨String.mk str, String.mk str⟩

/-- The function `parseOverlayColor`; `none` is its result `null`.  A mapping
that lacks a non-empty `fill` or `stroke` is converted by `String(input)`. -/
def parseOverlayColor {A : Type} (toStr : A → String) (input : ColorInput)
    (fillAlpha strokeAlpha : A) : Option Color :=
  match input with
  | .absent => none
  | .str s => if s = "" then none else some (parseColorString toStr s fillAlpha strokeAlpha)
  | .obj (some f) (some s) =>
    if f ≠ "" ∧ s ≠ "" then some ⟨f, s⟩
    else some (parseColorString toStr "[object Object]" fillAlpha strokeAlpha)
  | .obj _ _ => some (parseColorString toStr "[object Object]" fillAlpha strokeAlpha)

/-! ## Telemetry, configuration, scene -/

/-- One entry of `hass.states`: its `state` string and the unit of measurement
among its attributes, when there is one. -/
structure Entity where
  state : String
  unit_of_measurement : Option String
  deriving DecidableEq, Repr

/-- The store `hass.states`: a lookup by entity id. -/
abbrev States := String → Option Entity

/-- The host functions the render pass calls besides `Math`: the conversion
`Number(s)` of a state string and the number-to-string conversion. -/
structure Host (α : Type) where
  math : MathLib (JSNum α)
  Number : String → JSNum α
  toStr : JSNum α → String

/-- One entry of `config.sensors`; an option that is not set is `none`
(`absent` for a colour). -/
structure SensorConfig (α : Type) where
  id : String
  name : Option String
  x : Option (JSNum α)
  y : Option (JSNum α)
  rotation : Option (JSNum α)
  scale : Option (JSNum α)
  mirror_x : Option Bool
  mirror_y : Option Bool
  color : Option String
  coverage_color : ColorInput
  zone_colors : Option (List ColorInput)
  mask_color : ColorInput

/-- The card configuration `this._config`, after the defaults are merged in. -/
structure Config (α : Type) where
  image : String
  image_width : JSNum α
  image_height : JSNum α
  show_targets : Bool
  show_coverage : Bool
  show_zones : Bool
  show_occupancy_masks : Bool
  show_sensor_icons : Bool
  show_labels : Bool
  target_size : Option (JSNum α)
  mirror_x : Option Bool
  mirror_y : Option Bool
  coverage_color : ColorInput
  zone_colors : Option (List ColorInput)
  mask_color : ColorInput
  sensors : List (SensorConfig α)

/-- An element appended to a layer group.  Attributes that are the same
constant on every element of a kind (stroke width, opacity, anchoring) are left
out. -/
inductive Shape (α : Type) where
  | polygon (points : List (JSNum α × JSNum α)) (fill stroke : String)
  | circle (cx cy r : JSNum α) (fill : String)
  | text (x y : JSNum α) (content fill : String)
  deriving DecidableEq, Repr

/-- The scene of one render pass: the view box and the six layer groups, in
paint order. -/
structure Scene (α : Type) where
  viewBox : JSNum α × JSNum α
  image : String
  gCoverage : List (Shape α)
  gZones : List (Shape α)
  gMasks : List (Shape α)
  gTargets : List (Shape α)
  gSensors : List (Shape α)
  gLabels : List (Shape α)

/-- The expression `s || d` for a string `s` that may be `undefined`. -/
def strOr (s : Option String) (d : String) : String :=
  match s with
  | some v => if v = "" then d else v
  | none => d

section Render

variable {α : Type} [LinearOrderedField α]

/-- The method `_getNumberState`; `none` is its result `null`. -/
def getNumberState (H : Host α) (states : States) (entityId : String) : Option (JSNum α) :=
  match states entityId with
  | none => none
  | some entity =>
    let val := H.Number entity.state
    if val.isNaN then none else some val

/-- The constant `sensorPrefix`. -/
def sensorPrefix (sensor : SensorConfig α) : String := "sensor." ++ sensor.id ++ "_"

/-- The constant `numberPrefix`. -/
def numberPrefix (sensor : SensorConfig α) : String := "number." ++ sensor.id ++ "_"

/-- The constant `installationAngle` (lines 310-311). -/
def installationAngle (H : Host α) (states : States) (sensor : SensorConfig α) : JSNum α :=
  match states (numberPrefix sensor ++ "installation_angle") with
  | some iaEntity => JSNum.orDefault (some (H.Number iaEntity.state)) 0
  | none => 0

/-- The constant `maxDistance` (lines 314-315). -/
def maxDistance (H : Host α) (states : States) (sensor : SensorConfig α) : JSNum α :=
  match states (numberPrefix sensor ++ "max_distance") with
  | some mdEntity => H.Number mdEntity.state * 10
  | none => 7500

/-- The constant `isInch` (lines 318-320), as the condition of `if (isInch)`. -/
def isInch (states : States) (sensor : SensorConfig α) : Bool :=
  match states (sensorPrefix sensor ++ "target_1_x") with
  | some unitEntity => decide (unitEntity.unit_of_measurement = some "in")
  | none => false

/-- The constants of lines 302-311 that the transforms close over. -/
def mountOf (H : Host α) (cfg : Config α) (states : States) (sensor : SensorConfig α) :
    Mount (JSNum α) where
  sensorX := JSNum.orDefault sensor.x 0
  sensorY := JSNum.orDefault sensor.y 0
  floorplanRotation := JSNum.orDefault sensor.rotation 0
  sensorScale := JSNum.orDefault sensor.scale 1
  mirrorX := ((sensor.mirror_x.orElse fun _ => cfg.mirror_x).getD false)
  mirrorY := ((sensor.mirror_y.orElse fun _ => cfg.mirror_y).getD false)
  installationAngle := installationAngle H states sensor

/-- The constant `covColor` (lines 364-366). -/
def covColor (H : Host α) (cfg : Config α) (sensor : SensorConfig α) : Color :=
  ((parseOverlayColor H.toStr sensor.coverage_color 0.25 0.6).orElse fun _ =>
    parseOverlayColor H.toStr cfg.coverage_color 0.25 0.6).getD DEFAULT_COVERAGE_COLOR

/-- An element `colors[z - 1]` of a colour array that may be `undefined`. -/
def colorAt (colors : Option (List ColorInput)) (z : Nat) : ColorInput :=
  ((colors.getD []).get? (z - 1)).getD .absent

/-- The constant `zoneColor` (lines 423-425) of zone `z`; `z - 1` is an index
of `DEFAULT_ZONE_COLORS` for the four zones of the loop. -/
def zoneColor (H : Host α) (cfg : Config α) (sensor : SensorConfig α) (z : Nat) : Color :=
  ((parseOverlayColor H.toStr (colorAt sensor.zone_colors z) 0.10 0.4).orElse fun _ =>
    parseOverlayColor H.toStr (colorAt cfg.zone_colors z) 0.10 0.4).getD
      (DEFAULT_ZONE_COLORS.getD (z - 1) ⟨"", ""⟩)

/-- The constant `maskColor` (lines 451-453). -/
def maskColor (H : Host α) (cfg : Config α) (sensor : SensorConfig α) : Color :=
  ((parseOverlayColor H.toStr sensor.mask_color 0.12 0.3).orElse fun _ =>
    parseOverlayColor H.toStr cfg.mask_color 0.12 0.3).getD DEFAULT_MASK_COLOR

/-- The coverage block (lines 367-399): what one sensor appends to `gCoverage`. -/
def renderCoverage (H : Host α) (cfg : Config α) (states : States) (sensor : SensorConfig α) :
    List (Shape α) :=
  if cfg.show_coverage then
    let c := covColor H cfg sensor
    [.polygon (coveragePoints H.math (mountOf H cfg states sensor) (maxDistance H states sensor))
      c.fill c.stroke]
  else []

/-- One iteration of the zone loop (lines 408-431). -/
def renderZone (H : Host α) (cfg : Config α) (states : States) (sensor : SensorConfig α)
    (z : Nat) : List (Shape α) :=
  let key := fun coord => numberPrefix sensor ++ "zone_" ++ toString z ++ "_" ++ coord
  match getNumberState H states (key "begin_x"), getNumberState H states (key "begin_y"),
    getNumberState H states (key "end_x"), getNumberState H states (key "end_y") with
  | some bx, some bY, some ex, some eY =>
    let c := zoneColor H cfg sensor z
    [.polygon (rectPoints H.math (mountOf H cfg states sensor) bx bY ex eY) c.fill c.stroke]
  | _, _, _, _ => []

/-- The zone block (lines 402-433): what one sensor appends to `gZones`. -/
def renderZones (H : Host α) (cfg : Config α) (states : States) (sensor : SensorConfig α) :
    List (Shape α) :=
  if cfg.show_zones then [1, 2, 3, 4].flatMap (renderZone H cfg states sensor) else []

/-- The mask block (lines 436-461): what one sensor appends to `gMasks`. -/
def renderMask (H : Host α) (cfg : Config α) (states : States) (sensor : SensorConfig α) :
    List (Shape α) :=
  if cfg.show_occupancy_masks then
    let key := fun coord => numberPrefix sensor ++ "occupancy_mask_1_" ++ coord
    match getNumberState H states (key "begin_x"), getNumberState H states (key "begin_y"),
      getNumberState H states (key "end_x"), getNumberState H states (key "end_y") with
    | some bx, some bY, some ex, some eY =>
      let c := maskColor H cfg sensor
      [.polygon (rectPoints H.math (mountOf H cfg states sensor) bx bY ex eY) c.fill c.stroke]
    | _, _, _, _ => []
  else []

/-- One iteration of the target loop (lines 466-521): the glow disc, the dot
and the slot label, or nothing when the iteration hits `continue`. -/
def renderTarget (H : Host α) (cfg : Config α) (states : States) (sensor : SensorConfig α)
    (t : Nat) : List (Shape α) :=
  let color := strOr sensor.color "#4CAF50"
  match states (sensorPrefix sensor ++ "target_" ++ toString t ++ "_x"),
    states (sensorPrefix sensor ++ "target_" ++ toString t ++ "_y") with
  | some txEntity, some tyEntity =>
    let tx := H.Number txEntity.state
    let ty := H.Number tyEntity.state
    if tx.isZero && ty.isZero then []
    else
      let tx := if isInch states sensor then tx * 25.4 else tx
      let ty := if isInch states sensor then ty * 25.4 else ty
      let f := transformData H.math (mountOf H cfg states sensor) tx ty
      let targetSize := JSNum.orDefault cfg.target_size 100
      [.circle f.1 f.2 (targetSize * 1.5) color,
       .circle f.1 f.2 targetSize color,
       .text f.1 f.2 (toString t) "white"]
  | _, _ => []

/-- The target block (lines 464-523): what one sensor appends to `gTargets`. -/
def renderTargets (H : Host α) (cfg : Config α) (states : States) (sensor : SensorConfig α) :
    List (Shape α) :=
  if cfg.show_targets then [1, 2, 3].flatMap (renderTarget H cfg states sensor) else []

/-- The marker block (lines 526-563): what one sensor appends to `gSensors`. -/
def renderSensorIcon (H : Host α) (cfg : Config α) (states : States) (sensor : SensorConfig α) :
    List (Shape α) :=
  if cfg.show_sensor_icons then
    let color := strOr sensor.color "#4CAF50"
    let m := mountOf H cfg states sensor
    let markerSize : JSNum α := 200
    let triPoints : List (JSNum α × JSNum α) :=
      [(0, -markerSize), (-markerSize * 0.6, markerSize * 0.5), (markerSize * 0.6, markerSize * 0.5)]
    let rad := m.floorplanRotation * H.math.PI / 180
    let cos := H.math.cos rad
    let sin := H.math.sin rad
    [.polygon (triPoints.map fun p => (p.1 * cos - p.2 * sin + m.sensorX,
        p.1 * sin + p.2 * cos + m.sensorY)) color "white",
     .circle m.sensorX m.sensorY 60 "white"]
  else []

/-- The label block (lines 566-582): what one sensor appends to `gLabels`. -/
def renderLabel (H : Host α) (cfg : Config α) (states : States) (sensor : SensorConfig α) :
    List (Shape α) :=
  if cfg.show_labels then
    let m := mountOf H cfg states sensor
    [.text m.sensorX (m.sensorY + 320) (strOr sensor.name sensor.id) (strOr sensor.color "#4CAF50")]
  else []

/-- The method `_render` with `hass`, the configuration and the content element
in place: the scene it installs. -/
def render (H : Host α) (cfg : Config α) (states : States) : Scene α where
  viewBox := (cfg.image_width, cfg.image_height)
  image := cfg.image
  gCoverage := cfg.sensors.flatMap (renderCoverage H cfg states)
  gZones := cfg.sensors.flatMap (renderZones H cfg states)
  gMasks := cfg.sensors.flatMap (renderMask H cfg states)
  gTargets := cfg.sensors.flatMap (renderTargets H cfg states)
  gSensors := cfg.sensors.flatMap (renderSensorIcon H cfg states)
  gLabels := cfg.sensors.flatMap (renderLabel H cfg states)

end Render

/-! ## Change gate (constructor, `set hass`, `_computeStateHash`: lines 68-77, 101-108, 132-160) -/

/-- The method `join('|')` on an array of strings. -/
def joinBar : List String → String
  | [] => ""
  | [a] => a
  | a :: b :: rest => a ++ "|" ++ joinBar (b :: rest)

/-- The statement `if (e) parts.push(e.state)` for the entity with the id `key`:
what it appends to `parts`. -/
def pushState (states : States) (key : String) : List String :=
  match states key with
  | some e => [e.state]
  | none => []

section Gate

variable {α : Type} [LinearOrderedField α]

/-- One iteration of the sensor loop of `_computeStateHash` (lines 136-157): what
it appends to `parts`. -/
def sensorParts (states : States) (sensor : SensorConfig α) : List String :=
  let sp := sensorPrefix sensor
  let np := numberPrefix sensor
  [1, 2, 3].flatMap (fun t : Nat =>
      pushState states (sp ++ "target_" ++ toString t ++ "_x")
        ++ pushState states (sp ++ "target_" ++ toString t ++ "_y"))
    ++ pushState states (np ++ "installation_angle")
    ++ pushState states (np ++ "max_distance")
    ++ [1, 2, 3, 4].flatMap (fun z : Nat =>
        ["begin_x", "begin_y", "end_x", "end_y"].flatMap (fun coord =>
          pushState states (np ++ "zone_" ++ toString z ++ "_" ++ coord)))
    ++ ["begin_x", "begin_y", "end_x", "end_y"].flatMap (fun coord =>
        pushState states (np ++ "occupancy_mask_1_" ++ coord))

/-- The method `_computeStateHash`, for a card whose configuration is set;
`hass = none` is the card before the first push. -/
def computeStateHash (cfg : Config α) (hass : Option States) : String :=
  match hass with
  | none => ""
  | some states => joinBar (cfg.sensors.flatMap (sensorParts states))

/-- The fields of a configured card that the gate reads and writes; `renders`
counts the calls of `_render` so far and `content` is the scene in the content
element. -/
structure Card (α : Type) where
  config : Config α
  hass : Option States
  lastStateHash : String
  renders : Nat
  content : Option (Scene α)

/-- The card right after `setConfig`: the fields as the constructor sets them. -/
def Card.init (cfg : Config α) : Card α :=
  ⟨cfg, none, "", 0, none⟩

/-- The setter `set hass` (lines 101-108). -/
def Card.setHass (H : Host α) (card : Card α) (hass : States) : Card α :=
  let card := { card with hass := some hass }
  let hash := computeStateHash card.config card.hass
  if hash ≠ card.lastStateHash then
    { card with
      lastStateHash := hash
      renders := card.renders + 1
      content := some (render H card.config hass) }
  else card

end Gate

/-! ## The coverage polygon as the specification words it -/

section SpecWords

variable {α : Type} [LinearOrderedField α]

/-- The vertex list of the coverage polygon in the words of the specification:
the left edge point, one point `(sx, sqrt(max(0, maxDistance^2 - sx^2)))` with
`sx = step * maxDistance / 7500` for each step, the mirrored edge point, the
origin. -/
def specArcVertices (M : MathLib α) (maxDistance : α) : List (α × α) :=
  let sin60 := M.sin (M.PI / 180 * 60)
  let cos60 := M.cos (M.PI / 180 * 60)
  [(maxDistance * sin60, maxDistance * cos60)]
    ++ ([5500, 4500, 4000, 3000, 2000, 1000, 0, -1000, -2000, -3000, -4000, -4500, -5500] :
        List ℤ).map (fun step =>
          let sx : α := step * maxDistance / 7500
          (sx, M.sqrt (max 0 (maxDistance ^ 2 - sx ^ 2))))
    ++ [(-(maxDistance * sin60), maxDistance * cos60), (0, 0)]

end SpecWords

/-! ## A rational host, to run the model on concrete inputs -/

/-- A `Math` object on the rationals: truncated series for `cos` and `sin`, one
averaging step for `sqrt`.  It is exact at `0`, like the host's. -/
def ratMath : MathLib ℚ where
  PI := 355 / 113
  cos := fun x => 1 - x * x / 2 + x * x * x * x / 24
  sin := fun x => x - x * x * x / 6
  sqrt := fun x => if x ≤ 0 then 0 else (x + 1) / 2

/-- The digit class `[0-9]`. -/
def isDecDigit (c : Char) : Bool := 48 ≤ c.toNat && c.toNat ≤ 57

/-- The value of a string of decimal digits. -/
def digitsValue (cs : List Char) : Nat :=
  cs.foldl (fun acc c => 10 * acc + (c.toNat - 48)) 0

/-- An unsigned decimal literal `d+`, `d+.d*` or `.d+`; anything else is `NaN`. -/
def unsignedDecimal (cs : List Char) : JSNum ℚ :=
  let ip := cs.takeWhile isDecDigit
  match cs.dropWhile isDecDigit with
  | [] => if ip = [] then .nan else .num (digitsValue ip)
  | '.' :: fp =>
    if fp.all isDecDigit ∧ (ip ≠ [] ∨ fp ≠ []) then
      .num (digitsValue ip + (digitsValue fp : ℚ) / 10 ^ fp.length)
    else .nan
  | _ => .nan

/-- The conversion `Number(s)` for the strings used here: surrounding white
space is dropped, the empty string is `0`, a signed decimal literal without
exponent is its value, every other string is `NaN`. -/
def decimalNumber (s : String) : JSNum ℚ :=
  match jsTrim s.data with
  | [] => .num 0
  | '-' :: cs => -(unsignedDecimal cs)
  | '+' :: cs => unsignedDecimal cs
  | cs => unsignedDecimal cs

/-- The decimal digits of `r / d` after the point, at most `fuel` of them. -/
def fracDigits : Nat → Nat → Nat → List Char
  | 0, _, _ => []
  | fuel + 1, r, d =>
    if r = 0 then [] else Char.ofNat (48 + 10 * r / d) :: fracDigits fuel (10 * r % d) d

/-- A number-to-string conversion for rationals with a short decimal expansion. -/
def ratToStr : JSNum ℚ → String
  | .nan => "NaN"
  | .num q =>
    let n := q.num.natAbs
    (if q < 0 then "-" else "") ++ toString (n / q.den)
      ++ (if n % q.den = 0 then "" else "." ++ String.mk (fracDigits 17 (n % q.den) q.den))

/-- The rational host. -/
def ratHost : Host ℚ where
  math := ratMath.withNaN
  Number := decimalNumber
  toStr := ratToStr

/-- A sensor entry with only `id` and the anchor set. -/
def sensorAt (id : String) (x y : ℚ) : SensorConfig ℚ where
  id := id
  name := none
  x := some (.num x)
  y := some (.num y)
  rotation := none
  scale := none
  mirror_x := none
  mirror_y := none
  color := none
  coverage_color := .absent
  zone_colors := none
  mask_color := .absent

/-- The configuration `DEFAULT_CONFIG` (lines 49-65) with the given sensors. -/
def defaultConfig (sensors : List (SensorConfig ℚ)) : Config ℚ where
  image := "/local/floor-plan.png"
  image_width := 12192
  image_height := 10973
  show_targets := true
  show_coverage := true
  show_zones := true
  show_occupancy_masks := true
  show_sensor_icons := true
  show_labels := true
  target_size := some 100
  mirror_x := none
  mirror_y := none
  coverage_color := .absent
  zone_colors := none
  mask_color := .absent
  sensors := sensors

/-- A store `hass.states` given by its entries. -/
def statesOf (entries : List (String × Entity)) : States :=
  fun k => (entries.find? fun e => e.1 = k).map Prod.snd

/-! ## Vocabulary of the statements -/

/-- A colour option is set: present and not the empty string. -/
def ColorInput.isSet (i : ColorInput) : Prop := i ≠ .absent ∧ i ≠ .str ""

instance (i : ColorInput) : Decidable i.isSet := by
  unfold ColorInput.isSet
  infer_instance

/-- A hex colour of the form `#rgb` or `#rrggbb`, in the words of the specification. -/
def isShortOrLongHex (cs : List Char) : Bool :=
  match cs with
  | '#' :: h => (h.length = 3 || h.length = 6) && h.all isHexDigit
  | _ => false

/-- A mount with finite constants, read over the numbers with `NaN`. -/
def Mount.toJS {α : Type} (s : Mount α) : Mount (JSNum α) :=
  ⟨.num s.sensorX, .num s.sensorY, .num s.floorplanRotation, .num s.sensorScale,
    s.mirrorX, s.mirrorY, .num s.installationAngle⟩

/-- The three elements drawn for target slot `t` at centre `c`. -/
def targetMarker {α : Type} [LinearOrderedField α] (cfg : Config α) (sensor : SensorConfig α)
    (t : Nat) (c : JSNum α × JSNum α) : List (Shape α) :=
  [.circle c.1 c.2 (JSNum.orDefault cfg.target_size 100 * 1.5) (strOr sensor.color "#4CAF50"),
   .circle c.1 c.2 (JSNum.orDefault cfg.target_size 100) (strOr sensor.color "#4CAF50"),
   .text c.1 c.2 (toString t) "white"]

/-- A store in which both readings of slot 1 are `unavailable`. -/
def unavailableStates : States :=
  statesOf [("sensor.s1_target_1_x", ⟨"unavailable", some "mm"⟩),
            ("sensor.s1_target_1_y", ⟨"unavailable", some "mm"⟩)]

/-- A store with slot 1 in millimetres and slot 2 in inches. -/
def mixedUnitStates : States :=
  statesOf [("sensor.s1_target_1_x", ⟨"500", some "mm"⟩),
            ("sensor.s1_target_1_y", ⟨"0", some "mm"⟩),
            ("sensor.s1_target_2_x", ⟨"10", some "in"⟩),
            ("sensor.s1_target_2_y", ⟨"20", some "in"⟩)]

/-- A store whose slot 1 reads `(0, 0.0001)`. -/
def nearZeroStates : States :=
  statesOf [("sensor.s1_target_1_x", ⟨"0", some "mm"⟩),
            ("sensor.s1_target_1_y", ⟨"0.0001", some "mm"⟩)]

/-- A sensor whose second zone colour is set and whose other colours are not. -/
def zoneColoured : SensorConfig ℚ :=
  { sensorAt "s1" 1000 2000 with zone_colors := some [.absent, .str "#0af"] }

/-- The entity ids `_computeStateHash` looks up for one sensor, in its order:
the target coordinates, the installation angle, the maximum distance, the zone
corners, the mask corners. -/
def hashKeys {α : Type} (sensor : SensorConfig α) : List String :=
  [1, 2, 3].flatMap (fun t : Nat =>
      ["sensor." ++ sensor.id ++ "_target_" ++ toString t ++ "_x",
       "sensor." ++ sensor.id ++ "_target_" ++ toString t ++ "_y"])
    ++ ["number." ++ sensor.id ++ "_installation_angle",
        "number." ++ sensor.id ++ "_max_distance"]
    ++ [1, 2, 3, 4].flatMap (fun z : Nat =>
        ["begin_x", "begin_y", "end_x", "end_y"].map (fun coord =>
          "number." ++ sensor.id ++ "_zone_" ++ toString z ++ "_" ++ coord))
    ++ ["begin_x", "begin_y", "end_x", "end_y"].map (fun coord =>
        "number." ++ sensor.id ++ "_occupancy_mask_1_" ++ coord)

/-- The reading stored under an entity id: its state string, if the entity is there. -/
def reading (states : States) (key : String) : Option String :=
  (states key).map Entity.state

/-- A store whose only entry is a maximum distance with the empty state. -/
def emptyDistanceStates : States :=
  statesOf [("number.s1_max_distance", ⟨"", none⟩)]

/-- A store with a target and a maximum distance of `450`. -/
def distance450States : States :=
  statesOf [("sensor.s1_target_1_x", ⟨"500", some "mm"⟩),
            ("sensor.s1_target_1_y", ⟨"0", some "mm"⟩),
            ("number.s1_max_distance", ⟨"450", none⟩)]

/-- The same store with a maximum distance of `600`. -/
def distance600States : States :=
  statesOf [("sensor.s1_target_1_x", ⟨"500", some "mm"⟩),
            ("sensor.s1_target_1_y", ⟨"0", some "mm"⟩),
            ("number.s1_max_distance", ⟨"600", none⟩)]

/-- Every part behind a bar: the characters of `'|' + parts.join('|')` for a
non-empty array. -/
def barred (parts : List String) : List Char :=
  parts.flatMap (fun p => '|' :: p.data)

/-- The store with no entry. -/
def noStates : States := statesOf []

/-! ## Binary64 numbers

The host evaluates lines 367-382 in binary64.  `Dbl` is the carrier of that
arithmetic for the generic definitions of the coverage arc above: a finite
number is a rational, and every operation rounds its exact result to the
nearest binary64 value. -/

/-- The power `2^e` for an integer exponent. -/
def pow2 (e : ℤ) : ℚ := (2 : ℚ) ^ e

/-- The number of halvings that bring `n` below `2`, at most `fuel` of them. -/
def log2Fuel : ℕ → ℕ → ℕ
  | 0, _ => 0
  | fuel + 1, n => if n < 2 then 0 else log2Fuel fuel (n / 2) + 1

/-- The exponent of a positive natural number: the `k` with `2^k ≤ n < 2^(k+1)`. -/
def natLog2 (n : ℕ) : ℕ := log2Fuel n n

/-- The exponent of a non-zero rational: the `e` with `2^e ≤ |x| < 2^(e+1)`. -/
def floorLog2 (x : ℚ) : ℤ :=
  let k : ℤ := (natLog2 x.num.natAbs : ℤ) - (natLog2 x.den : ℤ)
  if pow2 k ≤ |x| then k else k - 1

/-- Rounding to the nearest integer, ties to the even one. -/
def roundHalfEven (y : ℚ) : ℤ :=
  let f := ⌊y⌋
  let r := y - f
  if r < 1 / 2 then f
  else if 1 / 2 < r then f + 1
  else if f % 2 = 0 then f else f + 1

/-- The binary64 value nearest to `x` (ties to even): 53 significant bits above
the exponent `-1022`, multiples of `2^-1074` below.  Values beyond the largest
binary64 number are rounded in the same way and not replaced by `Infinity`. -/
def roundDouble (x : ℚ) : ℚ :=
  if x = 0 then 0
  else
    let e := max (floorLog2 x) (-1022)
    let u := pow2 (e - 52)
    (if x < 0 then -1 else 1) * ((roundHalfEven (|x| / u) : ℤ) : ℚ) * u

/-- A finite JavaScript number: a rational, every arithmetic operation rounded
to binary64.  `Infinity`, `NaN` and the sign of zero are not represented: the
statements on this carrier keep every intermediate result below `2^1000`, take
no root of a negative number and divide by `7500` only. -/
structure Dbl where
  val : ℚ
  deriving DecidableEq

namespace Dbl

instance : Zero Dbl := ⟨⟨0⟩⟩
instance : NatCast Dbl := ⟨fun n => ⟨roundDouble n⟩⟩
instance : IntCast Dbl := ⟨fun n => ⟨roundDouble n⟩⟩
instance : Add Dbl := ⟨fun a b => ⟨roundDouble (a.val + b.val)⟩⟩
instance : Sub Dbl := ⟨fun a b => ⟨roundDouble (a.val - b.val)⟩⟩
instance : Mul Dbl := ⟨fun a b => ⟨roundDouble (a.val * b.val)⟩⟩
instance : Div Dbl := ⟨fun a b => ⟨roundDouble (a.val / b.val)⟩⟩
instance : Neg Dbl := ⟨fun a => ⟨-a.val⟩⟩
instance : LT Dbl := ⟨fun a b => a.val < b.val⟩
instance : DecidableRel (fun a b : Dbl => a < b) :=
  fun a b => inferInstanceAs (Decidable (a.val < b.val))

end Dbl


/-! ## A binary64 host, to run the model on concrete inputs -/

/-- Newton's iteration for the integer square root, from a guess above it. -/
def sqrtFuel : ℕ → ℕ → ℕ → ℕ
  | 0, _, g => g
  | fuel + 1, n, g =>
    let next := (g + n / g) / 2
    if next < g then sqrtFuel fuel n next else g

/-- The integer square root. -/
def natSqrt (n : ℕ) : ℕ :=
  if n = 0 then 0 else sqrtFuel (natLog2 n + 2) n (2 ^ (natLog2 n / 2 + 1))

/-- The sum of the first `n` terms of the sine series. -/
def sinSeries (x : ℚ) : ℕ → ℚ
  | 0 => 0
  | n + 1 => sinSeries x n + (-1) ^ n * x ^ (2 * n + 1) / (Nat.factorial (2 * n + 1) : ℚ)

/-- The sum of the first `n` terms of the cosine series. -/
def cosSeries (x : ℚ) : ℕ → ℚ
  | 0 => 0
  | n + 1 => cosSeries x n + (-1) ^ n * x ^ (2 * n) / (Nat.factorial (2 * n) : ℚ)

/-- A `Math` object on binary64 numbers: `PI` is the binary64 value of pi, `sin`
and `cos` round fourteen terms of their series (accurate for small arguments),
`sqrt` rounds a square root computed to more than sixty bits.  The square root
of a negative number, `NaN` in the host, is not represented. -/
def dblMath : MathLib Dbl where
  PI := ⟨884279719003555 / 281474976710656⟩
  cos := fun x => ⟨roundDouble (cosSeries x.val 14)⟩
  sin := fun x => ⟨roundDouble (sinSeries x.val 14)⟩
  sqrt := fun v =>
    if v.val ≤ 0 then ⟨0⟩
    else
      let k : ℕ := ((130 - floorLog2 v.val) / 2).toNat
      ⟨roundDouble ((natSqrt ⌊v.val * 4 ^ k⌋.toNat : ℚ) / 2 ^ k)⟩

/-! ## Helper lemmas -/

section Carriers

variable {α : Type} [Field α]

@[simp] theorem JSNum.num_add_num (a b : α) :
    (JSNum.num a + JSNum.num b : JSNum α) = .num (a + b) := rfl

@[simp] theorem JSNum.num_sub_num (a b : α) :
    (JSNum.num a - JSNum.num b : JSNum α) = .num (a - b) := rfl

@[simp] theorem JSNum.num_mul_num (a b : α) :
    (JSNum.num a * JSNum.num b : JSNum α) = .num (a * b) := rfl

@[simp] theorem JSNum.num_div_num (a b : α) :
    (JSNum.num a / JSNum.num b : JSNum α) = .num (a / b) := rfl

@[simp] theorem JSNum.neg_num (a : α) : (-(JSNum.num a) : JSNum α) = .num (-a) := rfl

@[simp] theorem JSNum.ofNat_eq_num (n : ℕ) [n.AtLeastTwo] :
    (OfNat.ofNat n : JSNum α) = .num (OfNat.ofNat n) := rfl

theorem JSNum.mul_comm_num (a b : JSNum α) : a * b = b * a := by
  cases a <;> cases b
  · exact congrArg JSNum.num (mul_comm _ _)
  · rfl
  · rfl
  · rfl

/-- On finite numbers the transform over numbers with `NaN` is `transformData`
over the field. -/
theorem transformData_num (M : MathLib α) (s : Mount α) (x y : α) :
    transformData M.withNaN s.toJS (.num x) (.num y)
      = (.num (transformData M s x y).1, .num (transformData M s x y).2) := by
  cases hx : s.mirrorX <;> cases hy : s.mirrorY <;>
    simp [transformData, fpRad, Mount.toJS, MathLib.withNaN, JSNum.lift₁, hx, hy]

/-- On finite numbers the transform over numbers with `NaN` is `transformArc`
over the field. -/
theorem transformArc_num (M : MathLib α) (s : Mount α) (x y : α) :
    transformArc M.withNaN s.toJS (.num x) (.num y)
      = (.num (transformArc M s x y).1, .num (transformArc M s x y).2) := by
  cases hx : s.mirrorX <;> cases hy : s.mirrorY <;>
    simp [transformArc, fpRad, Mount.toJS, MathLib.withNaN, JSNum.lift₁, hx, hy]

end Carriers

theorem isHexDigit_not_whitespace (c : Char) (h : isHexDigit c = true) :
    isJSWhitespace c = false := by
  simp only [isHexDigit, isJSWhitespace, Bool.or_eq_true, Bool.and_eq_true,
    decide_eq_true_eq] at *
  simp only [Bool.or_eq_false_iff, Bool.and_eq_false_iff, decide_eq_false_iff_not]
  omega

theorem jsTrim_hash_cons (cs : List Char) (c : Char) (hc : isJSWhitespace c = false) :
    jsTrim ('#' :: (cs ++ [c])) = '#' :: (cs ++ [c]) := by
  have h1 : isJSWhitespace '#' = false := by decide
  simp [jsTrim, List.dropWhile, h1, hc]

theorem mk_cons_ne_empty (c : Char) (cs : List Char) : String.mk (c :: cs) ≠ "" := by
  intro h
  have := congrArg String.length h
  simp at this

theorem matchHex_eq_none (cs : List Char)
    (h : ¬ ∃ ds : List Char, cs = '#' :: ds ∧ 3 ≤ ds.length ∧ ds.length ≤ 8
      ∧ ∀ c ∈ ds, isHexDigit c = true) : matchHex cs = none := by
  unfold matchHex
  split
  · rename_i ds
    split
    · rename_i hc
      exact absurd ⟨ds, rfl, hc.1, hc.2.1, by simpa using hc.2.2⟩ h
    · rfl
  · rfl

theorem dropWhile_eq_self_of_head {p : Char → Bool} (l : List Char)
    (h : ∀ c, l.head? = some c → p c = false) : l.dropWhile p = l := by
  cases l with
  | nil => rfl
  | cons a t => simp [List.dropWhile, h a rfl]

theorem jsTrim_eq_self (cs : List Char)
    (hh : ∀ c, cs.head? = some c → isJSWhitespace c = false)
    (hl : ∀ c, cs.getLast? = some c → isJSWhitespace c = false) : jsTrim cs = cs := by
  unfold jsTrim
  rw [dropWhile_eq_self_of_head cs hh, dropWhile_eq_self_of_head cs.reverse (by simpa using hl)]
  simp

/-- The parser returns `null` exactly on an option that is not set. -/
theorem parseOverlayColor_eq_none_iff {A : Type} (toStr : A → String) (i : ColorInput)
    (a b : A) : parseOverlayColor toStr i a b = none ↔ ¬ i.isSet := by
  unfold ColorInput.isSet
  cases i with
  | absent => simp [parseOverlayColor]
  | str s => by_cases hs : s = "" <;> simp [parseOverlayColor, hs]
  | obj f s =>
    cases f <;> cases s <;> simp [parseOverlayColor]
    split <;> simp

/-- The chain `parse(o) || parse(g) || d`. -/
theorem resolve_chain {A : Type} (toStr : A → String) (o g : ColorInput) (a b : A) (d : Color) :
    some (((parseOverlayColor toStr o a b).orElse fun _ => parseOverlayColor toStr g a b).getD d)
      = if o.isSet then parseOverlayColor toStr o a b
        else if g.isSet then parseOverlayColor toStr g a b
        else some d := by
  by_cases ho : o.isSet
  · have : parseOverlayColor toStr o a b ≠ none := fun h =>
      (parseOverlayColor_eq_none_iff toStr o a b).mp h ho
    obtain ⟨c, hc⟩ := Option.ne_none_iff_exists'.mp this
    simp [ho, hc]
  · have h1 := (parseOverlayColor_eq_none_iff toStr o a b).mpr ho
    by_cases hg : g.isSet
    · have : parseOverlayColor toStr g a b ≠ none := fun h =>
        (parseOverlayColor_eq_none_iff toStr g a b).mp h hg
      obtain ⟨c, hc⟩ := Option.ne_none_iff_exists'.mp this
      simp [ho, hg, h1, hc]
    · have h2 := (parseOverlayColor_eq_none_iff toStr g a b).mpr hg
      simp [ho, hg, h1, h2]

section RenderLemmas

variable {α : Type} [LinearOrderedField α]

theorem JSNum.isZero_eq_true_iff (v : JSNum α) : v.isZero = true ↔ v = .num 0 := by
  cases v <;> simp [JSNum.isZero]

theorem targetKey_x (id : String) (t : Nat) :
    ("sensor." ++ id ++ "_") ++ "target_" ++ toString t ++ "_x"
      = "sensor." ++ id ++ "_target_" ++ toString t ++ "_x" := by
  simp [String.append_assoc]

theorem targetKey_y (id : String) (t : Nat) :
    ("sensor." ++ id ++ "_") ++ "target_" ++ toString t ++ "_y"
      = "sensor." ++ id ++ "_target_" ++ toString t ++ "_y" := by
  simp [String.append_assoc]

theorem isInch_eq_true_iff {β : Type} (states : States) (sensor : SensorConfig β) :
    isInch states sensor = true ↔
      ∃ e, states ("sensor." ++ sensor.id ++ "_target_1_x") = some e
        ∧ e.unit_of_measurement = some "in" := by
  have k : sensorPrefix sensor ++ "target_1_x" = "sensor." ++ sensor.id ++ "_target_1_x" := by
    simp [sensorPrefix, String.append_assoc]
  unfold isInch
  rw [k]
  cases h : states ("sensor." ++ sensor.id ++ "_target_1_x") <;> simp

/-- What the target loop appends for a slot whose two readings are present and
not both zero. -/
theorem renderTarget_active (H : Host α) (cfg : Config α) (states : States)
    (sensor : SensorConfig α) (t : Nat) (xEntity yEntity : Entity)
    (hx : states ("sensor." ++ sensor.id ++ "_target_" ++ toString t ++ "_x") = some xEntity)
    (hy : states ("sensor." ++ sensor.id ++ "_target_" ++ toString t ++ "_y") = some yEntity)
    (hz : ¬ (H.Number xEntity.state = .num 0 ∧ H.Number yEntity.state = .num 0)) :
    renderTarget H cfg states sensor t
      = targetMarker cfg sensor t
          (transformData H.math (mountOf H cfg states sensor)
            (if isInch states sensor then H.Number xEntity.state * 25.4
              else H.Number xEntity.state)
            (if isInch states sensor then H.Number yEntity.state * 25.4
              else H.Number yEntity.state)) := by
  have hz' : ((H.Number xEntity.state).isZero && (H.Number yEntity.state).isZero) = false := by
    rw [Bool.and_eq_false_iff]
    by_contra hc
    push_neg at hc
    simp only [ne_eq, Bool.not_eq_false, JSNum.isZero_eq_true_iff] at hc
    exact hz hc
  simp only [renderTarget, sensorPrefix, targetKey_x, targetKey_y, hx, hy, hz']
  rfl

/-- A shape of a slot of the loop is a shape of the target layer. -/
theorem mem_gTargets (H : Host α) (cfg : Config α) (states : States) (sensor : SensorConfig α)
    (t : Nat) (hshow : cfg.show_targets = true) (hs : sensor ∈ cfg.sensors)
    (ht : 1 ≤ t ∧ t ≤ 3) (sh : Shape α) (h : sh ∈ renderTarget H cfg states sensor t) :
    sh ∈ (render H cfg states).gTargets := by
  have : t = 1 ∨ t = 2 ∨ t = 3 := by omega
  simp only [render, List.mem_flatMap]
  refine ⟨sensor, hs, ?_⟩
  simp only [renderTargets, hshow, if_true, List.mem_flatMap]
  exact ⟨t, by rcases this with rfl | rfl | rfl <;> simp, h⟩

/-- A reading that is missing or not numeric is `null` for `_getNumberState`. -/
theorem getNumberState_eq_none_iff {β : Type} (H : Host β) (states : States) (k : String) :
    getNumberState H states k = none ↔
      states k = none ∨ ∃ e, states k = some e ∧ H.Number e.state = .nan := by
  unfold getNumberState
  cases h : states k with
  | none => simp
  | some e => cases hn : H.Number e.state <;> simp [JSNum.isNaN, hn]

/-- The sound part of the skipping policy: a zone or mask rectangle with a corner
reading that is missing or not numeric, and a target slot with a missing
reading, append nothing. -/
theorem missing_reading_skipped (H : Host α) (cfg : Config α) (states : States)
    (sensor : SensorConfig α) :
    (∀ z : Nat, (∃ coord ∈ ["begin_x", "begin_y", "end_x", "end_y"],
        getNumberState H states
          (numberPrefix sensor ++ "zone_" ++ toString z ++ "_" ++ coord) = none) →
        renderZone H cfg states sensor z = [])
    ∧ ((∃ coord ∈ ["begin_x", "begin_y", "end_x", "end_y"],
        getNumberState H states (numberPrefix sensor ++ "occupancy_mask_1_" ++ coord) = none) →
        renderMask H cfg states sensor = [])
    ∧ (∀ t : Nat,
        (states (sensorPrefix sensor ++ "target_" ++ toString t ++ "_x") = none
          ∨ states (sensorPrefix sensor ++ "target_" ++ toString t ++ "_y") = none) →
        renderTarget H cfg states sensor t = []) := by
  refine ⟨?_, ?_, ?_⟩
  · rintro z ⟨coord, hm, hn⟩
    simp only [List.mem_cons, List.mem_singleton, List.not_mem_nil, or_false] at hm
    unfold renderZone
    rcases hm with rfl | rfl | rfl | rfl <;> simp only [hn] <;> split <;> simp_all
  · rintro ⟨coord, hm, hn⟩
    simp only [List.mem_cons, List.mem_singleton, List.not_mem_nil, or_false] at hm
    unfold renderMask
    split
    · rcases hm with rfl | rfl | rfl | rfl <;> simp only [hn] <;> split <;> simp_all
    · rfl
  · rintro t (h | h)
    · simp only [renderTarget, h]
    · simp only [renderTarget, h]
      split <;> simp_all

end RenderLemmas

section ArcLemmas

variable {α : Type} [LinearOrderedField α]

/-- One step of the loop, against the point the specification names. -/
theorem step_point (M : MathLib α) (d : α) (h0 : M.sqrt 0 = 0) (step : ℤ) :
    (stepX d step, stepY M d step) =
      ((step : α) * d / 7500, M.sqrt (max 0 (d ^ 2 - ((step : α) * d / 7500) ^ 2))) := by
  have hx : stepX d step = (step : α) * d / 7500 := by
    simp only [stepX]; ring
  simp only [stepY, hx]
  have hv : d * d - (step : α) * d / 7500 * ((step : α) * d / 7500)
      = d ^ 2 - ((step : α) * d / 7500) ^ 2 := by ring
  rw [hv]
  by_cases h : 0 < d ^ 2 - ((step : α) * d / 7500) ^ 2
  · simp [h, max_eq_right h.le]
  · simp [h, max_eq_left (not_lt.mp h), h0]

theorem JSNum.intCast_eq_num (n : ℤ) : ((n : JSNum α)) = .num (n : α) := rfl

theorem JSNum.zero_eq_num : (0 : JSNum α) = .num 0 := rfl

theorem JSNum.num_lt_num (a b : α) : (JSNum.num a < JSNum.num b) ↔ a < b := Iff.rfl

theorem stepX_num (d : α) (step : ℤ) :
    stepX (JSNum.num d) step = .num (stepX d step) := by
  simp [stepX, JSNum.intCast_eq_num]

theorem stepY_num (M : MathLib α) (d : α) (step : ℤ) :
    stepY M.withNaN (JSNum.num d) step = .num (stepY M d step) := by
  simp only [stepY, stepX_num, JSNum.num_mul_num, JSNum.num_sub_num, JSNum.zero_eq_num,
    JSNum.num_lt_num, MathLib.withNaN, JSNum.lift₁]
  split <;> rfl

/-- For a finite `maxDistance` the vertices over the numbers with `NaN` are the
vertices over the field. -/
theorem arcVertices_num (M : MathLib α) (d : α) :
    arcVertices M.withNaN (JSNum.num d)
      = (arcVertices M d).map (fun v => (JSNum.num v.1, JSNum.num v.2)) := by
  simp only [arcVertices, arcX, arcY, COVERAGE_STEPS, List.map, stepX_num, stepY_num]
  simp [MathLib.withNaN, JSNum.lift₁, JSNum.zero_eq_num]

end ArcLemmas
/-! ## Helper lemmas for the change gate and the arc -/

theorem joinBar_cons_data (p : String) (ps : List String) :
    (joinBar (p :: ps)).data = p.data ++ barred ps := by
  induction ps generalizing p with
  | nil => simp [joinBar, barred]
  | cons q qs ih =>
    simp only [joinBar, String.data_append, ih, barred, List.flatMap_cons]
    simp

theorem barred_eq_nil {ps : List String} (h : barred ps = []) : ps = [] := by
  cases ps with
  | nil => rfl
  | cons p ps => simp [barred] at h

/-- Two arrays with the same `join('|')` have the same barred form, unless one
is empty and the other holds just the empty string. -/
theorem joinBar_eq_cases {p q : List String} (h : joinBar p = joinBar q) :
    barred p = barred q ∨ (p = [""] ∧ q = []) ∨ (p = [] ∧ q = [""]) := by
  have hd := congrArg String.data h
  cases p with
  | nil =>
    cases q with
    | nil => exact Or.inl rfl
    | cons y ys =>
      rw [joinBar_cons_data] at hd
      simp only [joinBar] at hd
      have h1 : y.data = [] ∧ barred ys = [] := by
        have := hd.symm
        simpa using List.append_eq_nil.mp this
      have hy : y = "" := String.ext h1.1
      rw [hy, barred_eq_nil h1.2]
      exact Or.inr (Or.inr ⟨rfl, rfl⟩)
  | cons x xs =>
    cases q with
    | nil =>
      rw [joinBar_cons_data] at hd
      simp only [joinBar] at hd
      have h1 : x.data = [] ∧ barred xs = [] := by
        simpa using List.append_eq_nil.mp hd
      have hx : x = "" := String.ext h1.1
      rw [hx, barred_eq_nil h1.2]
      exact Or.inr (Or.inl ⟨rfl, rfl⟩)
    | cons y ys =>
      rw [joinBar_cons_data, joinBar_cons_data] at hd
      left
      simp only [barred, List.flatMap_cons, List.cons_append]
      simp only [barred] at hd
      rw [hd]

/-- Contributions that agree off one key and are shorter at it give a shorter
concatenation. -/
theorem length_flatMap_lt {κ : Type} (a b : κ → List Char) (k0 : κ) (keys : List κ)
    (hoff : ∀ k ∈ keys, k ≠ k0 → a k = b k) (hlt : (a k0).length < (b k0).length) :
    (keys.flatMap a).length ≤ (keys.flatMap b).length
      ∧ (k0 ∈ keys → (keys.flatMap a).length < (keys.flatMap b).length) := by
  induction keys with
  | nil => simp
  | cons k ks ih =>
    have ih' := ih (fun k hk => hoff k (List.mem_cons_of_mem _ hk))
    simp only [List.flatMap_cons, List.length_append, List.mem_cons]
    by_cases hk : k = k0
    · subst hk
      constructor
      · omega
      · intro _; omega
    · have e := hoff k (List.mem_cons_self _ _) hk
      rw [e]
      constructor
      · omega
      · rintro (h | h)
        · exact absurd h.symm hk
        · have := ih'.2 h; omega

/-- Contributions that agree off one key of the list and differ at it give
different concatenations. -/
theorem flatMap_ne_of_differ_at {κ : Type} (a b : κ → List Char) (k0 : κ) (keys : List κ)
    (hoff : ∀ k ∈ keys, k ≠ k0 → a k = b k) (hne : a k0 ≠ b k0) (hmem : k0 ∈ keys) :
    keys.flatMap a ≠ keys.flatMap b := by
  rcases Nat.lt_trichotomy (a k0).length (b k0).length with hlt | heq | hgt
  · intro h
    have := (length_flatMap_lt a b k0 keys hoff hlt).2 hmem
    rw [h] at this
    exact absurd this (Nat.lt_irrefl _)
  · induction keys with
    | nil => simp at hmem
    | cons k ks ih =>
      simp only [List.flatMap_cons]
      intro h
      by_cases hk : k = k0
      · subst hk
        exact hne (List.append_inj h heq).1
      · have e := hoff k (List.mem_cons_self _ _) hk
        rw [e] at h
        have hks : k0 ∈ ks := by
          rcases List.mem_cons.mp hmem with h1 | h1
          · exact absurd h1.symm hk
          · exact h1
        exact ih (fun k hk => hoff k (List.mem_cons_of_mem _ hk)) hks (List.append_cancel_left h)
  · intro h
    have := (length_flatMap_lt b a k0 keys (fun k hk hne => (hoff k hk hne).symm) hgt).2 hmem
    rw [h] at this
    exact absurd this (Nat.lt_irrefl _)

section GateLemmas
variable {α : Type} [LinearOrderedField α]

theorem sensorParts_eq {β : Type} (states : States) (sensor : SensorConfig β) :
    sensorParts states sensor = (hashKeys sensor).flatMap (pushState states) := by
  simp [sensorParts, hashKeys, sensorPrefix, numberPrefix, String.append_assoc]

theorem parts_eq {β : Type} (cfg : Config β) (states : States) :
    cfg.sensors.flatMap (sensorParts states)
      = (cfg.sensors.flatMap hashKeys).flatMap (pushState states) := by
  rw [List.flatMap_assoc]
  congr 1
  funext sensor
  exact sensorParts_eq states sensor

theorem barred_flatMap_pushState (states : States) (keys : List String) :
    barred (keys.flatMap (pushState states))
      = keys.flatMap (fun k => barred (pushState states k)) := by
  simp [barred, List.flatMap_assoc]

theorem barred_pushState_injective (s t : States) (k : String)
    (h : barred (pushState s k) = barred (pushState t k)) : reading s k = reading t k := by
  unfold reading pushState barred at *
  cases hs : s k <;> cases ht : t k <;> simp [hs, ht] at h ⊢
  exact String.ext h

theorem pushState_eq_of_reading (s t : States) (k : String) (h : reading s k = reading t k) :
    pushState s k = pushState t k := by
  unfold reading pushState at *
  cases hs : s k <;> cases ht : t k <;> simp [hs, ht] at h ⊢
  exact h
end GateLemmas

section GateThms
variable {α : Type} [LinearOrderedField α]

/-- The fingerprints of two snapshots that differ in one fingerprinted reading
differ, unless that reading is the only one present, with the empty state, in
one snapshot and absent in the other. -/
theorem computeStateHash_ne {β : Type} (cfg : Config β) (s t : States) (k : String)
    (hk : k ∈ cfg.sensors.flatMap hashKeys)
    (hoff : ∀ k' ∈ cfg.sensors.flatMap hashKeys, k' ≠ k → reading s k' = reading t k')
    (hne : reading s k ≠ reading t k)
    (hdeg : ¬ ((∀ k' ∈ cfg.sensors.flatMap hashKeys, k' ≠ k → reading s k' = none)
        ∧ ((reading s k = some "" ∧ reading t k = none)
          ∨ (reading s k = none ∧ reading t k = some "")))) :
    computeStateHash cfg (some s) ≠ computeStateHash cfg (some t) := by
  intro h
  simp only [computeStateHash, parts_eq] at h
  have hb : barred ((cfg.sensors.flatMap hashKeys).flatMap (pushState s))
      ≠ barred ((cfg.sensors.flatMap hashKeys).flatMap (pushState t)) := by
    rw [barred_flatMap_pushState, barred_flatMap_pushState]
    refine flatMap_ne_of_differ_at _ _ k _ ?_ ?_ hk
    · intro k' hk' hne'
      show barred (pushState s k') = barred (pushState t k')
      rw [pushState_eq_of_reading s t k' (hoff k' hk' hne')]
    · exact fun hc => hne (barred_pushState_injective s t k hc)
  have none_of_nil : ∀ u : States,
      (cfg.sensors.flatMap hashKeys).flatMap (pushState u) = [] →
        ∀ k' ∈ cfg.sensors.flatMap hashKeys, reading u k' = none := by
    intro u hu k' hk'
    have := List.flatMap_eq_nil_iff.mp hu k' hk'
    unfold pushState at this
    unfold reading
    cases hu' : u k' <;> simp [hu'] at this ⊢
  have state_of_single : ∀ u : States,
      (cfg.sensors.flatMap hashKeys).flatMap (pushState u) = [""] →
        ∀ k' ∈ cfg.sensors.flatMap hashKeys, reading u k' = none ∨ reading u k' = some "" := by
    intro u hu k' hk'
    unfold reading
    cases hu' : u k' with
    | none => exact Or.inl rfl
    | some e =>
      right
      have hm : e.state ∈ (cfg.sensors.flatMap hashKeys).flatMap (pushState u) :=
        List.mem_flatMap.mpr ⟨k', hk', by simp [pushState, hu']⟩
      rw [hu] at hm
      simp only [List.mem_singleton] at hm
      simp [hm]
  rcases joinBar_eq_cases h with h1 | ⟨h1, h2⟩ | ⟨h1, h2⟩
  · exact hb h1
  · apply hdeg
    have ht := none_of_nil t h2
    refine ⟨fun k' hk' hne' => ?_, Or.inl ⟨?_, ht k hk⟩⟩
    · rw [hoff k' hk' hne']; exact ht k' hk'
    · rcases state_of_single s h1 k hk with h3 | h3
      · exact absurd (h3.trans (ht k hk).symm) hne
      · exact h3
  · apply hdeg
    have hs := none_of_nil s h1
    refine ⟨fun k' hk' _ => hs k' hk', Or.inr ⟨hs k hk, ?_⟩⟩
    rcases state_of_single t h2 k hk with h3 | h3
    · exact absurd ((hs k hk).trans h3.symm) hne
    · exact h3

theorem setHass_lastStateHash (H : Host α) (card : Card α) (s : States) :
    (card.setHass H s).lastStateHash = computeStateHash card.config (some s)
      ∧ (card.setHass H s).config = card.config
      ∧ (card.setHass H s).hass = some s := by
  unfold Card.setHass
  dsimp only
  split
  · exact ⟨rfl, rfl, rfl⟩
  · rename_i h
    exact ⟨(not_not.mp h).symm, rfl, rfl⟩

theorem setHass_fixed (H : Host α) (card : Card α) (s : States)
    (hl : computeStateHash card.config (some s) = card.lastStateHash)
    (hh : card.hass = some s) : card.setHass H s = card := by
  cases card with
  | mk config hass last renders content =>
    simp only at hl hh
    subst hh
    simp [Card.setHass, hl]

theorem setHass_of_hash_ne (H : Host α) (card : Card α) (s : States)
    (h : computeStateHash card.config (some s) ≠ card.lastStateHash) :
    (card.setHass H s).renders = card.renders + 1
      ∧ (card.setHass H s).content = some (render H card.config s) := by
  simp [Card.setHass, h]

theorem setHass_of_hash_eq (H : Host α) (card : Card α) (s : States)
    (h : computeStateHash card.config (some s) = card.lastStateHash) :
    (card.setHass H s).renders = card.renders
      ∧ (card.setHass H s).content = card.content := by
  simp [Card.setHass, h]

end GateThms

section ArcCircle
variable {α : Type} [LinearOrderedField α]

/-- The vertex list, split into the origin, the fifteen vertices of the arc and
the origin. -/
theorem arcVertices_split (M : MathLib α) (d : α) :
    arcVertices M d
      = (0, 0) :: (((d * M.sin (M.PI / 180 * 60), d * M.cos (M.PI / 180 * 60))
          :: COVERAGE_STEPS.map (fun step => (stepX d step, stepY M d step)))
          ++ [(-d * M.sin (M.PI / 180 * 60), d * M.cos (M.PI / 180 * 60))] ++ [(0, 0)]) := by
  simp [arcVertices, arcX, arcY, COVERAGE_STEPS]

theorem step_bound (step : ℤ) (h : step ∈ COVERAGE_STEPS) : -5500 ≤ step ∧ step ≤ 5500 := by
  simp only [COVERAGE_STEPS, List.mem_cons, List.mem_singleton, List.not_mem_nil, or_false] at h
  omega

/-- For a step within `±5500` the value under the square root is positive and
`|sx|` is at most `11/15` of the distance. -/
theorem step_val_pos (d : α) (hd : 0 < d) (step : ℤ) (h : -5500 ≤ step ∧ step ≤ 5500) :
    0 < d * d - stepX d step * stepX d step
      ∧ |stepX d step| ≤ d * (11 / 15) := by
  have h1 : (-5500 : α) ≤ (step : α) := by exact_mod_cast h.1
  have h2 : (step : α) ≤ 5500 := by exact_mod_cast h.2
  have habs : |(step : α)| ≤ 5500 := abs_le.mpr ⟨h1, h2⟩
  have hx : stepX d step = (step : α) / 7500 * d := by
    simp only [stepX]; ring
  have hq : |(step : α) / 7500| ≤ 11 / 15 := by
    rw [abs_div, abs_of_pos (by norm_num : (0 : α) < 7500)]
    rw [div_le_iff₀ (by norm_num : (0 : α) < 7500)]
    calc |(step : α)| ≤ 5500 := habs
      _ = 11 / 15 * 7500 := by norm_num
  constructor
  · rw [hx]
    have hsq : ((step : α) / 7500) ^ 2 ≤ (11 / 15) ^ 2 := by
      rw [← sq_abs]
      exact pow_le_pow_left₀ (abs_nonneg _) hq 2
    have : d * d - (step : α) / 7500 * d * ((step : α) / 7500 * d)
        = d ^ 2 * (1 - ((step : α) / 7500) ^ 2) := by ring
    rw [this]
    apply mul_pos (pow_pos hd 2)
    have : ((11 : α) / 15) ^ 2 < 1 := by norm_num
    linarith
  · rw [hx, abs_mul, abs_of_pos hd, mul_comm]
    exact mul_le_mul_of_nonneg_left hq hd.le

end ArcCircle

/-! ## Helper lemmas for binary64 arithmetic -/

theorem log2Fuel_spec (fuel n : ℕ) (h1 : 1 ≤ n) (hf : n ≤ fuel) :
    2 ^ log2Fuel fuel n ≤ n ∧ n < 2 ^ (log2Fuel fuel n + 1) := by
  induction fuel generalizing n with
  | zero => omega
  | succ fuel ih =>
    unfold log2Fuel
    by_cases h2 : n < 2
    · simp only [h2, if_true]
      omega
    · simp only [h2, if_false]
      have hn : 1 ≤ n / 2 := by omega
      have hf' : n / 2 ≤ fuel := by omega
      obtain ⟨ha, hb⟩ := ih (n / 2) hn hf'
      constructor
      · rw [pow_succ]; omega
      · rw [pow_succ]; omega

theorem natLog2_spec (n : ℕ) (h1 : 1 ≤ n) :
    2 ^ natLog2 n ≤ n ∧ n < 2 ^ (natLog2 n + 1) :=
  log2Fuel_spec n n h1 (le_refl n)

theorem pow2_pos (e : ℤ) : 0 < pow2 e := by
  unfold pow2; positivity

theorem pow2_sub (a b : ℤ) : pow2 (a - b) = pow2 a / pow2 b := by
  unfold pow2; exact zpow_sub₀ (by norm_num) a b

theorem pow2_natCast (n : ℕ) : pow2 (n : ℤ) = (2 : ℚ) ^ n := by
  unfold pow2; exact zpow_natCast 2 n

/-- The exponent found for a non-zero rational is not too large. -/
theorem pow2_floorLog2_le (x : ℚ) (hx : x ≠ 0) : pow2 (floorLog2 x) ≤ |x| := by
  unfold floorLog2
  dsimp only
  split
  · assumption
  · have ha1 : 1 ≤ x.num.natAbs := by
      have : x.num ≠ 0 := Rat.num_ne_zero.mpr hx
      omega
    have hb1 : 1 ≤ x.den := x.den_pos
    obtain ⟨ha, -⟩ := natLog2_spec _ ha1
    obtain ⟨-, hb⟩ := natLog2_spec _ hb1
    have habs : |x| = (x.num.natAbs : ℚ) / (x.den : ℚ) := by
      have h := Rat.num_div_den x
      conv_lhs => rw [← h]
      rw [abs_div, Nat.abs_cast, Nat.cast_natAbs, Int.cast_abs]
    rw [habs]
    have e : pow2 ((natLog2 x.num.natAbs : ℤ) - (natLog2 x.den : ℤ) - 1)
        = (2 : ℚ) ^ natLog2 x.num.natAbs / (2 : ℚ) ^ (natLog2 x.den + 1) := by
      rw [sub_sub, pow2_sub, pow2_natCast]
      congr 1
      have : ((natLog2 x.den : ℤ) + 1) = ((natLog2 x.den + 1 : ℕ) : ℤ) := by push_cast; ring
      rw [this, pow2_natCast]
    rw [e]
    have hden : (0 : ℚ) < x.den := by exact_mod_cast hb1
    rw [div_le_div_iff₀ (by positivity) hden]
    have ha' : ((2 : ℚ) ^ natLog2 x.num.natAbs) ≤ (x.num.natAbs : ℚ) := by exact_mod_cast ha
    have hb' : ((x.den : ℚ)) ≤ (2 : ℚ) ^ (natLog2 x.den + 1) := by exact_mod_cast hb.le
    calc (2 : ℚ) ^ natLog2 x.num.natAbs * x.den
        ≤ (x.num.natAbs : ℚ) * x.den := by
          exact mul_le_mul_of_nonneg_right ha' hden.le
      _ ≤ (x.num.natAbs : ℚ) * (2 : ℚ) ^ (natLog2 x.den + 1) := by
          exact mul_le_mul_of_nonneg_left hb' (by positivity)

theorem roundHalfEven_error (y : ℚ) : |((roundHalfEven y : ℤ) : ℚ) - y| ≤ 1 / 2 := by
  have h1 : (⌊y⌋ : ℚ) ≤ y := Int.floor_le y
  have h2 : y < (⌊y⌋ : ℚ) + 1 := Int.lt_floor_add_one y
  unfold roundHalfEven
  dsimp only
  rw [abs_le]
  split
  · constructor <;> linarith
  · split
    · push_cast; constructor <;> linarith
    · split
      · constructor <;> linarith
      · push_cast; constructor <;> linarith

theorem roundDouble_zero : roundDouble 0 = 0 := by
  simp [roundDouble]

theorem floorLog2_neg (x : ℚ) : floorLog2 (-x) = floorLog2 x := by
  simp [floorLog2]

theorem roundDouble_neg (x : ℚ) : roundDouble (-x) = -roundDouble x := by
  by_cases hx : x = 0
  · simp [hx, roundDouble_zero]
  · have hx' : -x ≠ 0 := neg_ne_zero.mpr hx
    simp only [roundDouble, hx, hx', if_false, floorLog2_neg, abs_neg]
    rcases lt_or_gt_of_ne hx with h | h
    · have h1 : ¬ (-x < 0) := by linarith
      simp only [h, h1, if_true, if_false]; ring
    · have h1 : (-x < 0) := by linarith
      have h2 : ¬ (x < 0) := by linarith
      simp only [h1, h2, if_true, if_false]; ring

/-- The unit roundoff of binary64: away from underflow the relative error of
rounding is at most `2^-53`. -/
theorem roundDouble_error (x : ℚ) (hx : x = 0 ∨ pow2 (-1022) ≤ |x|) :
    |roundDouble x - x| ≤ 1 / 2 ^ 53 * |x| := by
  by_cases h0 : x = 0
  · simp [h0, roundDouble_zero]
  · have hr : pow2 (-1022) ≤ |x| := hx.resolve_left h0
    have he : pow2 (max (floorLog2 x) (-1022)) ≤ |x| := by
      rcases max_cases (floorLog2 x) (-1022) with ⟨h, -⟩ | ⟨h, -⟩
      · rw [h]; exact pow2_floorLog2_le x h0
      · rw [h]; exact hr
    have h52 : pow2 52 = 2 ^ 52 := by
      have := pow2_natCast 52
      simpa using this
    have hu2 : 1 / 2 * pow2 (max (floorLog2 x) (-1022) - 52) ≤ 1 / 2 ^ 53 * |x| := by
      rw [pow2_sub, h52]
      have : 1 / 2 * (pow2 (max (floorLog2 x) (-1022)) / 2 ^ 52)
          = 1 / 2 ^ 53 * pow2 (max (floorLog2 x) (-1022)) := by ring
      rw [this]
      exact mul_le_mul_of_nonneg_left he (by positivity)
    have hu : 0 < pow2 (max (floorLog2 x) (-1022) - 52) := pow2_pos _
    have hn := roundHalfEven_error (|x| / pow2 (max (floorLog2 x) (-1022) - 52))
    have hrd : roundDouble x = (if x < 0 then -1 else 1)
        * ((roundHalfEven (|x| / pow2 (max (floorLog2 x) (-1022) - 52)) : ℤ) : ℚ)
        * pow2 (max (floorLog2 x) (-1022) - 52) := by
      simp only [roundDouble, h0, if_false]
    generalize pow2 (max (floorLog2 x) (-1022) - 52) = u at hu hn hrd hu2
    generalize ((roundHalfEven (|x| / u) : ℤ) : ℚ) = n at hn hrd
    have key : abs (n * u - abs x) ≤ 1 / 2 * u := by
      have e : n * u - |x| = (n - |x| / u) * u := by field_simp
      rw [e, abs_mul, abs_of_pos hu]
      exact mul_le_mul_of_nonneg_right hn hu.le
    have hval : |roundDouble x - x| = abs (n * u - abs x) := by
      rw [hrd]
      rcases lt_or_gt_of_ne h0 with h | h
      · simp only [h, if_true, abs_of_neg h]
        rw [← abs_neg]
        congr 1
        ring
      · have h2 : ¬ (x < 0) := by linarith
        simp only [h2, if_false, abs_of_pos h]
        congr 1
        ring
    rw [hval]
    exact key.trans hu2

theorem pow2_tiny : pow2 (-1022) ≤ 1 / 10 ^ 300 := by
  have h : pow2 (-1022) = 1 / 2 ^ 1022 := by
    unfold pow2
    rw [zpow_neg, one_div]
    norm_cast
  rw [h]
  rw [div_le_div_iff₀ (by positivity) (by positivity)]
  norm_num

/-- Rounding a positive number that is clear of underflow. -/
theorem roundDouble_bounds (x : ℚ) (hx : 1 / 10 ^ 300 ≤ x) :
    x * (1 - 1 / 2 ^ 53) ≤ roundDouble x ∧ roundDouble x ≤ x * (1 + 1 / 2 ^ 53) := by
  have hpos : 0 < x := lt_of_lt_of_le (by positivity) hx
  have h := roundDouble_error x (Or.inr (by rw [abs_of_pos hpos]; exact pow2_tiny.trans hx))
  rw [abs_of_pos hpos, abs_le] at h
  constructor <;> linarith [h.1, h.2]

/-- The error analysis of one step vertex, on the squares: `A = d^2`, `B = sx^2`,
`p`, `D`, `V` the rounded `sx*sx`, `d*d` and `D - p`, and `Y` the square of the
rounded root. -/
theorem circle_error (e A B p D V : ℚ) (he0 : 0 ≤ e) (he : e ≤ 1 / 1000) (hA : 0 < A)
    (hB0 : 0 ≤ B) (hB : B ≤ 9 / 16 * A)
    (hp : B * (1 - e) ≤ p ∧ p ≤ B * (1 + e))
    (hD : A * (1 - e) ≤ D ∧ D ≤ A * (1 + e)) :
    (2 / 5 * A ≤ D - p ∧ D - p ≤ A * (1 + e))
    ∧ ((V_lo : (D - p) * (1 - e) ≤ V) → (V_hi : V ≤ (D - p) * (1 + e)) →
        1 / 3 * A ≤ V
        ∧ ∀ Y : ℚ, |Y - V| ≤ 3 * e * V → |B + Y - A| ≤ 8 * e * A) := by
  have hw1 : 2 / 5 * A ≤ D - p := by nlinarith [mul_nonneg hB0 he0, mul_nonneg hA.le he0]
  have hw2 : D - p ≤ A * (1 + e) := by nlinarith [mul_nonneg hB0 he0, mul_nonneg hA.le he0]
  refine ⟨⟨hw1, hw2⟩, fun V_lo V_hi => ?_⟩
  have hwpos : 0 ≤ D - p := by linarith
  have hV1 : 1 / 3 * A ≤ V := by nlinarith [mul_nonneg hwpos he0]
  refine ⟨hV1, fun Y hY => ?_⟩
  have hVpos : 0 ≤ V := by linarith
  rw [abs_le] at hY
  have hAe : 0 ≤ A * e := mul_nonneg hA.le he0
  have hBe : 0 ≤ B * e := mul_nonneg hB0 he0
  have hVe : 0 ≤ V * e := mul_nonneg hVpos he0
  have hwe : 0 ≤ (D - p) * e := mul_nonneg hwpos he0
  -- crude bounds that make the remaining inequalities linear
  have hVle : V ≤ 2 * A := by nlinarith
  have hVe2 : V * e ≤ 2 * A * e := by nlinarith
  have hwe2 : (D - p) * e ≤ 2 * A * e := by nlinarith
  rw [abs_le]
  constructor
  · nlinarith
  · nlinarith

/-- Rounding zero or a positive number that is clear of underflow. -/
theorem roundDouble_bounds_or (x : ℚ) (hx : x = 0 ∨ 1 / 10 ^ 300 ≤ x) :
    x * (1 - 1 / 2 ^ 53) ≤ roundDouble x ∧ roundDouble x ≤ x * (1 + 1 / 2 ^ 53) := by
  rcases hx with rfl | hx
  · simp [roundDouble_zero]
  · exact roundDouble_bounds x hx

/-- The rounded `sx = step * (d / 7500)` for a step that is `0` or between `1000`
and `5500` in absolute value: it is `0` or clear of underflow, and at most
`3/4` of `d`. -/
theorem stepX_rounded (d c : ℚ) (hd : 1 / 10 ^ 100 ≤ d)
    (hc : c = 0 ∨ (1000 ≤ |c| ∧ |c| ≤ 5500)) :
    (roundDouble (c * roundDouble (d / 7500)) = 0
        ∨ 1 / 10 ^ 150 ≤ |roundDouble (c * roundDouble (d / 7500))|)
      ∧ |roundDouble (c * roundDouble (d / 7500))| ≤ 3 / 4 * d := by
  have hdpos : 0 < d := lt_of_lt_of_le (by positivity) hd
  have hq : (1 : ℚ) / 10 ^ 104 ≤ d / 7500 := by
    rw [div_le_div_iff₀ (by positivity) (by norm_num)]
    have : (1 : ℚ) * 7500 ≤ d * 10 ^ 104 := by
      have h1 : (1 : ℚ) / 10 ^ 100 * 10 ^ 104 ≤ d * 10 ^ 104 :=
        mul_le_mul_of_nonneg_right hd (by positivity)
      have h2 : (1 : ℚ) / 10 ^ 100 * 10 ^ 104 = 10000 := by norm_num
      linarith
    exact this
  have hr := roundDouble_bounds (d / 7500)
    (le_trans (by rw [div_le_div_iff₀ (by positivity) (by positivity)]; norm_num) hq)
  generalize roundDouble (d / 7500) = r at hr
  have hqd : d / 7500 = d * (1 / 7500) := by ring
  rw [hqd] at hr hq
  have hrlo : (1 : ℚ) / 10 ^ 105 ≤ r := by
    have : (1 : ℚ) / 10 ^ 105 ≤ 1 / 10 ^ 104 * (1 - 1 / 2 ^ 53) := by norm_num
    nlinarith [hr.1, hq]
  have hrpos : 0 < r := lt_of_lt_of_le (by positivity) hrlo
  rcases hc with rfl | ⟨hc1, hc2⟩
  · rw [zero_mul, roundDouble_zero, abs_zero]
    exact ⟨Or.inl rfl, by positivity⟩
  · have hcr : |c * r| = |c| * r := by rw [abs_mul, abs_of_pos hrpos]
    have hcrlo : (1 : ℚ) / 10 ^ 300 ≤ |c * r| := by
      rw [hcr]
      have : (1 : ℚ) / 10 ^ 300 ≤ 1000 * (1 / 10 ^ 105) := by norm_num
      nlinarith
    have he := roundDouble_error (c * r) (Or.inr (pow2_tiny.trans hcrlo))
    have h1 := abs_sub_abs_le_abs_sub (roundDouble (c * r)) (c * r)
    have h2 := abs_sub_abs_le_abs_sub (c * r) (roundDouble (c * r))
    rw [abs_sub_comm] at h2
    generalize |roundDouble (c * r)| = s at h1 h2 ⊢
    rw [hcr] at he h1 h2
    constructor
    · right
      have : (1 : ℚ) / 10 ^ 150 ≤ 1000 * (1 / 10 ^ 105) * (1 - 1 / 2 ^ 53) := by norm_num
      nlinarith
    · have hup : s ≤ |c| * r * (1 + 1 / 2 ^ 53) := by linarith
      have hr2 : r ≤ d * (1 / 7500) * (1 + 1 / 2 ^ 53) := hr.2
      have h5 : |c| * r ≤ 5500 * r := mul_le_mul_of_nonneg_right hc2 hrpos.le
      have h6 : 5500 * r * (1 + 1 / 2 ^ 53) ≤ 3 / 4 * d := by nlinarith
      nlinarith

/-- The error analysis of one step vertex in binary64, for a maximum distance
clear of underflow: the value under the root is positive, `|sx|` is at most
`3/4` of the distance, and a root accurate to `3 * 2^-53` on its square puts
the vertex within `2^-50 d^2` of the circle. -/
theorem step_rounded (d c : ℚ) (hd : 1 / 10 ^ 100 ≤ d)
    (hc : c = 0 ∨ (1000 ≤ |c| ∧ |c| ≤ 5500)) :
    |roundDouble (c * roundDouble (d / 7500))| ≤ 3 / 4 * d
    ∧ 1 / 3 * (d * d)
        ≤ roundDouble (roundDouble (d * d)
            - roundDouble (roundDouble (c * roundDouble (d / 7500))
                * roundDouble (c * roundDouble (d / 7500))))
    ∧ ∀ Y : ℚ,
        |Y - roundDouble (roundDouble (d * d)
            - roundDouble (roundDouble (c * roundDouble (d / 7500))
                * roundDouble (c * roundDouble (d / 7500))))|
          ≤ 3 * (1 / 2 ^ 53) * roundDouble (roundDouble (d * d)
            - roundDouble (roundDouble (c * roundDouble (d / 7500))
                * roundDouble (c * roundDouble (d / 7500)))) →
        |roundDouble (c * roundDouble (d / 7500)) * roundDouble (c * roundDouble (d / 7500))
            + Y - d * d| ≤ 1 / 2 ^ 50 * (d * d) := by
  obtain ⟨hsx0, hsx⟩ := stepX_rounded d c hd hc
  generalize roundDouble (c * roundDouble (d / 7500)) = sx at hsx0 hsx ⊢
  have hdpos : 0 < d := lt_of_lt_of_le (by positivity) hd
  have hA : 0 < d * d := mul_pos hdpos hdpos
  have hAlo : (1 : ℚ) / 10 ^ 200 ≤ d * d := by
    have : (1 : ℚ) / 10 ^ 200 = 1 / 10 ^ 100 * (1 / 10 ^ 100) := by norm_num
    rw [this]
    exact mul_le_mul hd hd (by positivity) hdpos.le
  have hB0 : 0 ≤ sx * sx := mul_self_nonneg sx
  have hBabs : sx * sx = |sx| * |sx| := (abs_mul_abs_self sx).symm
  have hB : sx * sx ≤ 9 / 16 * (d * d) := by
    rw [hBabs]
    nlinarith [abs_nonneg sx]
  have hBr : sx * sx = 0 ∨ 1 / 10 ^ 300 ≤ sx * sx := by
    rcases hsx0 with h | h
    · left; rw [h]; ring
    · right
      rw [hBabs]
      have : (1 : ℚ) / 10 ^ 300 = 1 / 10 ^ 150 * (1 / 10 ^ 150) := by norm_num
      rw [this]
      exact mul_le_mul h h (by positivity) (abs_nonneg sx)
  have hp := roundDouble_bounds_or (sx * sx) hBr
  have hD := roundDouble_bounds (d * d)
    (le_trans (by rw [div_le_div_iff₀ (by positivity) (by positivity)]; norm_num) hAlo)
  obtain ⟨⟨hw1, hw2⟩, hrest⟩ := circle_error (1 / 2 ^ 53) (d * d) (sx * sx)
    (roundDouble (sx * sx)) (roundDouble (d * d))
    (roundDouble (roundDouble (d * d) - roundDouble (sx * sx)))
    (by positivity) (by norm_num) hA hB0 hB hp hD
  have hwlo : (1 : ℚ) / 10 ^ 300 ≤ roundDouble (d * d) - roundDouble (sx * sx) := by
    have : (1 : ℚ) / 10 ^ 300 ≤ 2 / 5 * (1 / 10 ^ 200) := by norm_num
    linarith
  have hV := roundDouble_bounds _ hwlo
  obtain ⟨hV1, hY⟩ := hrest hV.1 hV.2
  refine ⟨hsx, hV1, fun Y hYV => ?_⟩
  have := hY Y hYV
  have e8 : (8 : ℚ) * (1 / 2 ^ 53) = 1 / 2 ^ 50 := by norm_num
  rw [e8] at this
  exact this

/-- The error analysis of an edge vertex in binary64: the rounded products
`d * s` and `d * c`, for host values `s`, `c` of `sin 60°` and `cos 60°`. -/
theorem edge_rounded (d s c : ℚ) (hd : 1 / 10 ^ 100 ≤ d)
    (hs : 4 / 5 ≤ s ∧ s ≤ 1) (hc : 1 / 4 ≤ c ∧ c ≤ 1)
    (hunit : |s * s + c * c - 1| ≤ 1 / 2 ^ 51) :
    3 / 4 * d ≤ roundDouble (d * s)
    ∧ 0 ≤ roundDouble (d * c)
    ∧ |roundDouble (d * s) * roundDouble (d * s) + roundDouble (d * c) * roundDouble (d * c)
        - d * d| ≤ 1 / 2 ^ 50 * (d * d) := by
  have hdpos : 0 < d := lt_of_lt_of_le (by positivity) hd
  have hds : (1 : ℚ) / 10 ^ 300 ≤ d * s :=
    calc (1 : ℚ) / 10 ^ 300 ≤ 1 / 10 ^ 100 * (4 / 5) := by norm_num
      _ ≤ d * s := mul_le_mul hd hs.1 (by norm_num) hdpos.le
  have hdc : (1 : ℚ) / 10 ^ 300 ≤ d * c :=
    calc (1 : ℚ) / 10 ^ 300 ≤ 1 / 10 ^ 100 * (1 / 4) := by norm_num
      _ ≤ d * c := mul_le_mul hd hc.1 (by norm_num) hdpos.le
  have hx := roundDouble_bounds (d * s) hds
  have hy := roundDouble_bounds (d * c) hdc
  generalize roundDouble (d * s) = x at hx ⊢
  generalize roundDouble (d * c) = y at hy ⊢
  have hdspos : 0 < d * s := lt_of_lt_of_le (by positivity) hds
  have hdcpos : 0 < d * c := lt_of_lt_of_le (by positivity) hdc
  have hlo_s : 0 ≤ d * s * (1 - 1 / 2 ^ 53) := mul_nonneg hdspos.le (by norm_num)
  have hlo_c : 0 ≤ d * c * (1 - 1 / 2 ^ 53) := mul_nonneg hdcpos.le (by norm_num)
  have hxpos : 0 ≤ x := le_trans hlo_s hx.1
  have hypos : 0 ≤ y := le_trans hlo_c hy.1
  have h45 : d * (4 / 5) ≤ d * s := mul_le_mul_of_nonneg_left hs.1 hdpos.le
  have h34 : 3 / 4 * d ≤ x := by
    have : 3 / 4 * d ≤ d * (4 / 5) * (1 - 1 / 2 ^ 53) := by
      have : (3 : ℚ) / 4 ≤ 4 / 5 * (1 - 1 / 2 ^ 53) := by norm_num
      calc 3 / 4 * d ≤ 4 / 5 * (1 - 1 / 2 ^ 53) * d :=
            mul_le_mul_of_nonneg_right this hdpos.le
        _ = d * (4 / 5) * (1 - 1 / 2 ^ 53) := by ring
    have h2 : d * (4 / 5) * (1 - 1 / 2 ^ 53) ≤ d * s * (1 - 1 / 2 ^ 53) :=
      mul_le_mul_of_nonneg_right h45 (by norm_num)
    exact this.trans (h2.trans hx.1)
  refine ⟨h34, hypos, ?_⟩
  rw [abs_le] at hunit ⊢
  have hA : 0 < d * d := mul_pos hdpos hdpos
  -- squares of the bounds
  have hx2u : x * x ≤ (d * s * (1 + 1 / 2 ^ 53)) * (d * s * (1 + 1 / 2 ^ 53)) :=
    mul_le_mul hx.2 hx.2 hxpos (hxpos.trans hx.2)
  have hx2l : (d * s * (1 - 1 / 2 ^ 53)) * (d * s * (1 - 1 / 2 ^ 53)) ≤ x * x :=
    mul_le_mul hx.1 hx.1 hlo_s hxpos
  have hy2u : y * y ≤ (d * c * (1 + 1 / 2 ^ 53)) * (d * c * (1 + 1 / 2 ^ 53)) :=
    mul_le_mul hy.2 hy.2 hypos (hypos.trans hy.2)
  have hy2l : (d * c * (1 - 1 / 2 ^ 53)) * (d * c * (1 - 1 / 2 ^ 53)) ≤ y * y :=
    mul_le_mul hy.1 hy.1 hlo_c hypos
  have hsum_u : s * s + c * c ≤ 1 + 1 / 2 ^ 51 := by linarith [hunit.2]
  have hsum_l : 1 - 1 / 2 ^ 51 ≤ s * s + c * c := by linarith [hunit.1]
  have e1 : (d * s * (1 + 1 / 2 ^ 53)) * (d * s * (1 + 1 / 2 ^ 53))
      + (d * c * (1 + 1 / 2 ^ 53)) * (d * c * (1 + 1 / 2 ^ 53))
      = d * d * ((s * s + c * c) * ((1 + 1 / 2 ^ 53) * (1 + 1 / 2 ^ 53))) := by ring
  have e2 : (d * s * (1 - 1 / 2 ^ 53)) * (d * s * (1 - 1 / 2 ^ 53))
      + (d * c * (1 - 1 / 2 ^ 53)) * (d * c * (1 - 1 / 2 ^ 53))
      = d * d * ((s * s + c * c) * ((1 - 1 / 2 ^ 53) * (1 - 1 / 2 ^ 53))) := by ring
  have k1 : (s * s + c * c) * ((1 + 1 / 2 ^ 53) * (1 + 1 / 2 ^ 53)) ≤ 1 + 1 / 2 ^ 50 := by
    have : (1 + 1 / 2 ^ 51) * ((1 + 1 / 2 ^ 53) * (1 + 1 / 2 ^ 53)) ≤ (1 : ℚ) + 1 / 2 ^ 50 := by
      norm_num
    exact le_trans (mul_le_mul_of_nonneg_right hsum_u (by positivity)) this
  have k2 : 1 - 1 / 2 ^ 50 ≤ (s * s + c * c) * ((1 - 1 / 2 ^ 53) * (1 - 1 / 2 ^ 53)) := by
    have : (1 : ℚ) - 1 / 2 ^ 50 ≤ (1 - 1 / 2 ^ 51) * ((1 - 1 / 2 ^ 53) * (1 - 1 / 2 ^ 53)) := by
      norm_num
    exact le_trans this (mul_le_mul_of_nonneg_right hsum_l (by norm_num))
  have u := mul_le_mul_of_nonneg_left k1 hA.le
  have l := mul_le_mul_of_nonneg_left k2 hA.le
  constructor <;> linarith

theorem Dbl.val_ofNat_7500 : (7500 : Dbl).val = 7500 := by decide!

theorem Dbl.val_step (step : ℤ) (h : step ∈ COVERAGE_STEPS) :
    ((step : ℤ) : Dbl).val = (step : ℚ)
      ∧ ((step : ℚ) = 0 ∨ (1000 ≤ |(step : ℚ)| ∧ |(step : ℚ)| ≤ 5500)) := by
  have : ∀ s ∈ COVERAGE_STEPS, ((s : ℤ) : Dbl).val = (s : ℚ)
      ∧ ((s : ℚ) = 0 ∨ (1000 ≤ |(s : ℚ)| ∧ |(s : ℚ)| ≤ 5500)) := by decide!
  exact this step h

theorem Dbl.stepX_val (d : Dbl) (step : ℤ) (h : step ∈ COVERAGE_STEPS) :
    (stepX d step).val = roundDouble ((step : ℚ) * roundDouble (d.val / 7500)) := by
  show roundDouble (((step : ℤ) : Dbl).val * roundDouble (d.val / (7500 : Dbl).val)) = _
  rw [(Dbl.val_step step h).1, Dbl.val_ofNat_7500]

/-- The vertex list over any carrier, split into the origin, the fifteen
vertices of the arc and the origin. -/
theorem arcVertices_split_any {ν : Type} [Add ν] [Sub ν] [Mul ν] [Div ν] [Neg ν] [NatCast ν]
    [Zero ν] [IntCast ν] [LT ν] [DecidableRel (fun a b : ν => a < b)]
    (M : MathLib ν) (d : ν) :
    arcVertices M d
      = (0, 0) :: (((d * M.sin (M.PI / 180 * 60), d * M.cos (M.PI / 180 * 60))
          :: COVERAGE_STEPS.map (fun step => (stepX d step, stepY M d step)))
          ++ [(-d * M.sin (M.PI / 180 * 60), d * M.cos (M.PI / 180 * 60))] ++ [(0, 0)]) := by
  simp [arcVertices, arcX, arcY, COVERAGE_STEPS]

/-- No rational number has the square `55250000 = 7500² - 1000²`. -/
theorem no_rational_root (q : ℚ) : q * q ≠ 55250000 := by
  intro h
  have h1 : IsSquare ((55250000 : ℕ) : ℚ) := ⟨q, by rw [h]; norm_num⟩
  rw [Rat.isSquare_natCast_iff] at h1
  obtain ⟨t, ht⟩ := h1
  exact Nat.not_exists_sq (by norm_num : 7433 * 7433 < 55250000)
    (by norm_num : 55250000 < (7433 + 1) * (7433 + 1)) ⟨t, ht.symm⟩

/-! ## The coverage arc in exact arithmetic -/

/-- The coverage arc in exact arithmetic: over an ordered field whose `sin`,
`cos` and `sqrt` are exact (Pythagoras at 60 degrees, `cos 60° = 1/2`,
`sin 60° ≥ 0`, and `sqrt` a non-negative right inverse of squaring), for every
`maxDistance > 0` the fifteen vertices between the two origins lie on the
circle of radius `maxDistance`, with `y ≥ 0` and `|x| ≤ maxDistance * sin 60°`,
and no step takes the branch that clamps to zero.  Binary64 arithmetic
satisfies neither the hypothesis on `cos` nor the one on `sqrt`. -/
theorem arc_exact {α : Type} [LinearOrderedField α] (M : MathLib α) (maxDistance : α)
    (hd : 0 < maxDistance)
    (hpyth : M.sin (M.PI / 180 * 60) ^ 2 + M.cos (M.PI / 180 * 60) ^ 2 = 1)
    (hcos : M.cos (M.PI / 180 * 60) = 1 / 2)
    (hsin : 0 ≤ M.sin (M.PI / 180 * 60))
    (hsqrt : ∀ v : α, 0 ≤ v → 0 ≤ M.sqrt v ∧ M.sqrt v ^ 2 = v) :
    (∃ pts : List (α × α), pts.length = 15
        ∧ arcVertices M maxDistance = (0, 0) :: (pts ++ [(0, 0)])
        ∧ ∀ v ∈ pts, v.1 ^ 2 + v.2 ^ 2 = maxDistance ^ 2 ∧ 0 ≤ v.2
            ∧ |v.1| ≤ maxDistance * M.sin (M.PI / 180 * 60))
    ∧ ∀ step ∈ COVERAGE_STEPS,
        0 < maxDistance * maxDistance - stepX maxDistance step * stepX maxDistance step
        ∧ stepY M maxDistance step
            = M.sqrt (maxDistance * maxDistance
                - stepX maxDistance step * stepX maxDistance step) := by
  have hs34 : M.sin (M.PI / 180 * 60) ^ 2 = 3 / 4 := by
    rw [hcos] at hpyth; linarith
  have hs1115 : (11 : α) / 15 ≤ M.sin (M.PI / 180 * 60) := by
    by_contra hc
    push_neg at hc
    have : M.sin (M.PI / 180 * 60) ^ 2 < (11 / 15) ^ 2 := pow_lt_pow_left₀ hc hsin (by norm_num)
    rw [hs34] at this
    norm_num at this
  have hstep : ∀ step ∈ COVERAGE_STEPS,
      0 < maxDistance * maxDistance - stepX maxDistance step * stepX maxDistance step
      ∧ stepY M maxDistance step
          = M.sqrt (maxDistance * maxDistance
              - stepX maxDistance step * stepX maxDistance step) := by
    intro step hmem
    have hp := (step_val_pos maxDistance hd step (step_bound step hmem)).1
    exact ⟨hp, by simp [stepY, hp]⟩
  refine ⟨⟨_, ?_, arcVertices_split M maxDistance, ?_⟩, hstep⟩
  · simp [COVERAGE_STEPS]
  · intro v hv
    simp only [List.mem_append, List.mem_cons, List.mem_map, List.mem_singleton,
      List.not_mem_nil, or_false] at hv
    rcases hv with (rfl | ⟨step, hmem, rfl⟩) | rfl
    · refine ⟨?_, ?_, ?_⟩
      · have : (maxDistance * M.sin (M.PI / 180 * 60)) ^ 2
            + (maxDistance * M.cos (M.PI / 180 * 60)) ^ 2
            = maxDistance ^ 2 * (M.sin (M.PI / 180 * 60) ^ 2 + M.cos (M.PI / 180 * 60) ^ 2) := by
          ring
        rw [this, hpyth, mul_one]
      · show 0 ≤ maxDistance * M.cos (M.PI / 180 * 60)
        rw [hcos]; positivity
      · show |maxDistance * M.sin (M.PI / 180 * 60)| ≤ _
        rw [abs_of_nonneg (mul_nonneg hd.le hsin)]
    · obtain ⟨hp, hy⟩ := hstep step hmem
      obtain ⟨hq0, hq2⟩ := hsqrt _ hp.le
      refine ⟨?_, ?_, ?_⟩
      · show stepX maxDistance step ^ 2 + stepY M maxDistance step ^ 2 = maxDistance ^ 2
        rw [hy, hq2]; ring
      · show 0 ≤ stepY M maxDistance step
        rw [hy]; exact hq0
      · show |stepX maxDistance step| ≤ _
        exact (step_val_pos maxDistance hd step (step_bound step hmem)).2.trans
          (mul_le_mul_of_nonneg_left hs1115 hd.le)
    · refine ⟨?_, ?_, ?_⟩
      · have : (-maxDistance * M.sin (M.PI / 180 * 60)) ^ 2
            + (maxDistance * M.cos (M.PI / 180 * 60)) ^ 2
            = maxDistance ^ 2 * (M.sin (M.PI / 180 * 60) ^ 2 + M.cos (M.PI / 180 * 60) ^ 2) := by
          ring
        rw [this, hpyth, mul_one]
      · show 0 ≤ maxDistance * M.cos (M.PI / 180 * 60)
        rw [hcos]; positivity
      · show |-maxDistance * M.sin (M.PI / 180 * 60)| ≤ _
        rw [neg_mul, abs_neg, abs_of_nonneg (mul_nonneg hd.le hsin)]

/-- The coverage arc over the reals, with the real `sin`, `cos` and `sqrt`, at
the default distance `7500`. -/
theorem arc_exact_real :
    ((0 : ℝ) < 7500
      ∧ Real.sin (Real.pi / 180 * 60) ^ 2 + Real.cos (Real.pi / 180 * 60) ^ 2 = 1
      ∧ Real.cos (Real.pi / 180 * 60) = 1 / 2
      ∧ 0 ≤ Real.sin (Real.pi / 180 * 60)
      ∧ ∀ v : ℝ, 0 ≤ v → 0 ≤ Real.sqrt v ∧ Real.sqrt v ^ 2 = v)
    ∧ (∃ pts : List (ℝ × ℝ), pts.length = 15
        ∧ arcVertices (⟨Real.pi, Real.cos, Real.sin, Real.sqrt⟩ : MathLib ℝ) 7500
            = (0, 0) :: (pts ++ [(0, 0)])
        ∧ ∀ v ∈ pts, v.1 ^ 2 + v.2 ^ 2 = (7500 : ℝ) ^ 2 ∧ 0 ≤ v.2
            ∧ |v.1| ≤ 7500 * Real.sin (Real.pi / 180 * 60))
    ∧ ∀ step ∈ COVERAGE_STEPS,
        0 < (7500 : ℝ) * 7500 - stepX (7500 : ℝ) step * stepX (7500 : ℝ) step
        ∧ stepY (⟨Real.pi, Real.cos, Real.sin, Real.sqrt⟩ : MathLib ℝ) 7500 step
          = Real.sqrt (7500 * 7500 - stepX (7500 : ℝ) step * stepX (7500 : ℝ) step) :=
  have e : Real.pi / 180 * 60 = Real.pi / 3 := by ring
  have h0 : (0 : ℝ) < 7500 := by norm_num
  have h1 : Real.sin (Real.pi / 180 * 60) ^ 2 + Real.cos (Real.pi / 180 * 60) ^ 2 = 1 :=
    Real.sin_sq_add_cos_sq _
  have h2 : Real.cos (Real.pi / 180 * 60) = 1 / 2 := by rw [e]; exact Real.cos_pi_div_three
  have h3 : 0 ≤ Real.sin (Real.pi / 180 * 60) := by
    rw [e, Real.sin_pi_div_three]; positivity
  have h4 : ∀ v : ℝ, 0 ≤ v → 0 ≤ Real.sqrt v ∧ Real.sqrt v ^ 2 = v :=
    fun v hv => ⟨Real.sqrt_nonneg v, Real.sq_sqrt hv⟩
  ⟨⟨h0, h1, h2, h3, h4⟩,
    arc_exact (⟨Real.pi, Real.cos, Real.sin, Real.sqrt⟩ : MathLib ℝ) 7500 h0 h1 h2 h3 h4⟩

/-! ## The claims -/

/-- C1: for every sensor and every local point, `transformData` returns
`(sensorX + fx, sensorY + fy)` with `fx = x' cos fp + y' sin fp`,
`fy = x' sin fp - y' cos fp`, `x' = scale * (mirrorX ? -x : x)`,
`y' = scale * (mirrorY ? -y : y)` and `fp = floorplanRotation * pi / 180`; the
origin is mapped to the anchor; and, the host's `cos` and `sin` being exact at
`0`, the anchor `(1000, 2000)` with rotation `0`, scale `1` and no mirroring
maps `(500, 0)` to `(1500, 2000)`. -/
theorem transformData_spec {α : Type} [Field α] (M : MathLib α) (s : Mount α) (x y : α) :
    transformData M s x y =
        (let fp := s.floorplanRotation * M.PI / 180
         let x' := s.sensorScale * (if s.mirrorX then -x else x)
         let y' := s.sensorScale * (if s.mirrorY then -y else y)
         (s.sensorX + (x' * M.cos fp + y' * M.sin fp),
          s.sensorY + (x' * M.sin fp - y' * M.cos fp)))
      ∧ transformData M s 0 0 = (s.sensorX, s.sensorY)
      ∧ (M.cos 0 = 1 → M.sin 0 = 0 → ∀ ia : α,
          transformData M ⟨1000, 2000, 0, 1, false, false, ia⟩ 500 0 = (1500, 2000)) := by
  refine ⟨?_, ?_, ?_⟩
  · simp only [transformData, fpRad]
    cases s.mirrorX <;> cases s.mirrorY <;> ext <;> simp <;> ring
  · simp [transformData]
  · intro hc hs ia
    simp [transformData, fpRad, hc, hs]
    norm_num

/-- C1 at the rational host: the worked scenario of the specification. -/
theorem transformData_spec_witness :
    ratMath.cos 0 = 1 ∧ ratMath.sin 0 = 0 ∧
      transformData ratMath ⟨1000, 2000, 0, 1, false, false, 0⟩ 500 0 = (1500, 2000) :=
  have hc : ratMath.cos 0 = 1 := by simp [ratMath]
  have hs : ratMath.sin 0 = 0 := by simp [ratMath]
  ⟨hc, hs, (transformData_spec ratMath ⟨1000, 2000, 0, 1, false, false, 0⟩ 0 0).2.2 hc hs 0⟩

/-- C2: for every sensor whose installation angle is `0` and every local point,
`transformArc` equals `transformData` (the host's `cos` and `sin` being exact at
`0`, so that the installation rotation is the identity). -/
theorem transformArc_eq_transformData {α : Type} [Field α] (M : MathLib α) (s : Mount α)
    (x y : α) (hia : s.installationAngle = 0) (hcos : M.cos 0 = 1) (hsin : M.sin 0 = 0) :
    transformArc M s x y = transformData M s x y := by
  simp [transformArc, transformData, hia, hcos, hsin]

/-- C2 at the rational host, for a mirrored, scaled and rotated sensor. -/
theorem transformArc_eq_transformData_witness :
    (⟨1000, 2000, 90, 2, true, false, 0⟩ : Mount ℚ).installationAngle = 0
      ∧ ratMath.cos 0 = 1 ∧ ratMath.sin 0 = 0
      ∧ transformArc ratMath ⟨1000, 2000, 90, 2, true, false, 0⟩ 3 4
          = transformData ratMath ⟨1000, 2000, 90, 2, true, false, 0⟩ 3 4 :=
  have hc : ratMath.cos 0 = 1 := by simp [ratMath]
  have hs : ratMath.sin 0 = 0 := by simp [ratMath]
  ⟨rfl, hc, hs,
    transformArc_eq_transformData ratMath ⟨1000, 2000, 90, 2, true, false, 0⟩ 3 4 rfl hc hs⟩

/-- C3: the rectangle builder is order-independent: the four transformed corners
built from `(beginX, beginY, endX, endY)` are, as a set (and even as a list up
to reordering), those built after swapping `beginX` with `endX`, and those built
after swapping `beginY` with `endY`. -/
theorem rectPoints_swap {ν : Type} [Add ν] [Sub ν] [Mul ν] [Div ν] [Neg ν] [NatCast ν]
    (M : MathLib ν) (s : Mount ν) (beginX beginY endX endY : ν) :
    ((rectPoints M s beginX beginY endX endY).Perm (rectPoints M s endX beginY beginX endY)
      ∧ {p | p ∈ rectPoints M s beginX beginY endX endY}
          = {p | p ∈ rectPoints M s endX beginY beginX endY})
    ∧ ((rectPoints M s beginX beginY endX endY).Perm (rectPoints M s beginX endY endX beginY)
      ∧ {p | p ∈ rectPoints M s beginX beginY endX endY}
          = {p | p ∈ rectPoints M s beginX endY endX beginY}) := by
  have hx : (rectPoints M s beginX beginY endX endY).Perm
      (rectPoints M s endX beginY beginX endY) := by
    have : rectPoints M s endX beginY beginX endY
        = (rectPoints M s beginX beginY endX endY).reverse := by
      simp [rectPoints]
    rw [this]
    exact (List.reverse_perm _).symm
  have hy : (rectPoints M s beginX beginY endX endY).Perm
      (rectPoints M s beginX endY endX beginY) := by
    simp only [rectPoints, List.map]
    exact (List.Perm.swap _ _ _).trans
      (List.Perm.cons _ (List.Perm.cons _ (List.Perm.swap _ _ _)))
  exact ⟨⟨hx, Set.ext fun p => hx.mem_iff⟩, ⟨hy, Set.ext fun p => hy.mem_iff⟩⟩

/-- C4: for every six-digit hex colour `#RRGGBB` (digits in either case) and
every alpha pair `(a, b)`, `parseOverlayColor` returns fill `rgba(r,g,b,a)` and
stroke `rgba(r,g,b,b)` with `r`, `g`, `b` the values of the digit pairs; for
every three-digit hex colour each channel is 17 times its digit; `#0af` gives
`r = 0`, `g = 170`, `b = 255`. -/
theorem parseOverlayColor_hex {A : Type} (toStr : A → String) (a b : A) :
    (∀ c1 c2 c3 c4 c5 c6 : Char,
      isHexDigit c1 = true → isHexDigit c2 = true → isHexDigit c3 = true →
      isHexDigit c4 = true → isHexDigit c5 = true → isHexDigit c6 = true →
      parseOverlayColor toStr (.str (String.mk ['#', c1, c2, c3, c4, c5, c6])) a b =
        some ⟨"rgba(" ++ toString (16 * hexVal c1 + hexVal c2) ++ ","
                ++ toString (16 * hexVal c3 + hexVal c4) ++ ","
                ++ toString (16 * hexVal c5 + hexVal c6) ++ "," ++ toStr a ++ ")",
              "rgba(" ++ toString (16 * hexVal c1 + hexVal c2) ++ ","
                ++ toString (16 * hexVal c3 + hexVal c4) ++ ","
                ++ toString (16 * hexVal c5 + hexVal c6) ++ "," ++ toStr b ++ ")"⟩)
    ∧ (∀ c1 c2 c3 : Char,
      isHexDigit c1 = true → isHexDigit c2 = true → isHexDigit c3 = true →
      parseOverlayColor toStr (.str (String.mk ['#', c1, c2, c3])) a b =
        some ⟨"rgba(" ++ toString (17 * hexVal c1) ++ "," ++ toString (17 * hexVal c2) ++ ","
                ++ toString (17 * hexVal c3) ++ "," ++ toStr a ++ ")",
              "rgba(" ++ toString (17 * hexVal c1) ++ "," ++ toString (17 * hexVal c2) ++ ","
                ++ toString (17 * hexVal c3) ++ "," ++ toStr b ++ ")"⟩)
    ∧ parseOverlayColor toStr (.str "#0af") a b =
        some ⟨"rgba(0,170,255," ++ toStr a ++ ")", "rgba(0,170,255," ++ toStr b ++ ")"⟩ := by
  have three : ∀ c1 c2 c3 : Char,
      isHexDigit c1 = true → isHexDigit c2 = true → isHexDigit c3 = true →
      parseOverlayColor toStr (.str (String.mk ['#', c1, c2, c3])) a b =
        some ⟨"rgba(" ++ toString (17 * hexVal c1) ++ "," ++ toString (17 * hexVal c2) ++ ","
                ++ toString (17 * hexVal c3) ++ "," ++ toStr a ++ ")",
              "rgba(" ++ toString (17 * hexVal c1) ++ "," ++ toString (17 * hexVal c2) ++ ","
                ++ toString (17 * hexVal c3) ++ "," ++ toStr b ++ ")"⟩ := by
    intro c1 c2 c3 h1 h2 h3
    have ht := jsTrim_hash_cons [c1, c2] c3 (isHexDigit_not_whitespace c3 h3)
    simp only [List.cons_append, List.nil_append] at ht
    have e : ∀ n : Nat, 16 * n + n = 17 * n := fun n => by omega
    simp [parseOverlayColor, mk_cons_ne_empty, parseColorString, ht, matchHex, h1, h2, h3,
      hexToColor, charAt, parseInt16, channelStr, List.takeWhile, e]
  refine ⟨?_, three, ?_⟩
  · intro c1 c2 c3 c4 c5 c6 h1 h2 h3 h4 h5 h6
    have ht := jsTrim_hash_cons [c1, c2, c3, c4, c5] c6 (isHexDigit_not_whitespace c6 h6)
    simp only [List.cons_append, List.nil_append] at ht
    simp [parseOverlayColor, mk_cons_ne_empty, parseColorString, ht, matchHex, h1, h2, h3, h4,
      h5, h6, hexToColor, slice, parseInt16, channelStr, List.takeWhile]
  · have h := three '0' 'a' 'f' (by decide) (by decide) (by decide)
    have e0 : toString (17 * hexVal '0') = "0" := by decide
    have e1 : toString (17 * hexVal 'a') = "170" := by decide
    have e2 : toString (17 * hexVal 'f') = "255" := by decide
    rw [e0, e1, e2] at h
    exact h

/-- C4 at `#03A9f4` with the alpha pair of the coverage layer. -/
theorem parseOverlayColor_hex_witness :
    (isHexDigit '0' = true ∧ isHexDigit '3' = true ∧ isHexDigit 'A' = true ∧
      isHexDigit '9' = true ∧ isHexDigit 'f' = true ∧ isHexDigit '4' = true) ∧
    parseOverlayColor (fun s : String => s) (.str "#03A9f4") "0.25" "0.6" =
      some ⟨"rgba(3,169,244,0.25)", "rgba(3,169,244,0.6)"⟩ :=
  ⟨⟨by decide, by decide, by decide, by decide, by decide, by decide⟩,
    (parseOverlayColor_hex (fun s : String => s) "0.25" "0.6").1 '0' '3' 'A' '9' 'f' '4'
      (by decide) (by decide) (by decide) (by decide) (by decide) (by decide)⟩

/-- C5, as stated, fails: `#12345678` is a non-empty string that is neither `#rgb`
nor `#rrggbb`, and `parseOverlayColor` does not return it verbatim but decodes
its first six digits. -/
theorem parseOverlayColor_verbatim_counterexample :
    ("#12345678" ≠ "" ∧ isShortOrLongHex "#12345678".data = false)
    ∧ parseOverlayColor (fun s : String => s) (.str "#12345678") "0.25" "0.6"
        = some ⟨"rgba(18,52,86,0.25)", "rgba(18,52,86,0.6)"⟩
    ∧ parseOverlayColor (fun s : String => s) (.str "#12345678") "0.25" "0.6"
        ≠ some ⟨"#12345678", "#12345678"⟩ := by
  decide

/-- C5, amended: for every non-empty string `s` whose trimmed form is not `#`
followed by three to eight hex digits, `parseOverlayColor` returns the trimmed
string as both fill and stroke, for every alpha pair; that is `s` verbatim when
`s` neither starts nor ends with white space. -/
theorem parseOverlayColor_verbatim {A : Type} (toStr : A → String) (s : String) (a b : A)
    (hne : s ≠ "")
    (hhex : ¬ ∃ ds : List Char, jsTrim s.data = '#' :: ds ∧ 3 ≤ ds.length ∧ ds.length ≤ 8
      ∧ ∀ c ∈ ds, isHexDigit c = true) :
    parseOverlayColor toStr (.str s) a b
        = some ⟨String.mk (jsTrim s.data), String.mk (jsTrim s.data)⟩
      ∧ ((∀ c, s.data.head? = some c → isJSWhitespace c = false) →
         (∀ c, s.data.getLast? = some c → isJSWhitespace c = false) →
          parseOverlayColor toStr (.str s) a b = some ⟨s, s⟩) := by
  have h1 : parseOverlayColor toStr (.str s) a b
      = some ⟨String.mk (jsTrim s.data), String.mk (jsTrim s.data)⟩ := by
    simp [parseOverlayColor, hne, parseColorString, matchHex_eq_none _ hhex]
  refine ⟨h1, fun hh hl => ?_⟩
  rw [h1, jsTrim_eq_self s.data hh hl]

/-- C5, amended, at `rgb(1,2,3)`. -/
theorem parseOverlayColor_verbatim_witness :
    "rgb(1,2,3)" ≠ "" ∧
    (¬ ∃ ds : List Char, jsTrim "rgb(1,2,3)".data = '#' :: ds ∧ 3 ≤ ds.length ∧ ds.length ≤ 8
      ∧ ∀ c ∈ ds, isHexDigit c = true) ∧
    parseOverlayColor (fun s : String => s) (.str "rgb(1,2,3)") "0.25" "0.6"
      = some ⟨"rgb(1,2,3)", "rgb(1,2,3)"⟩ :=
  have hne : "rgb(1,2,3)" ≠ "" := by decide
  have hhex : ¬ ∃ ds : List Char, jsTrim "rgb(1,2,3)".data = '#' :: ds ∧ 3 ≤ ds.length
      ∧ ds.length ≤ 8 ∧ ∀ c ∈ ds, isHexDigit c = true := by
    rintro ⟨ds, h, -⟩
    have e : jsTrim "rgb(1,2,3)".data = "rgb(1,2,3)".data := by decide
    rw [e] at h
    exact absurd (List.cons.inj h).1 (by decide)
  ⟨hne, hhex,
    (parseOverlayColor_verbatim (fun s : String => s) "rgb(1,2,3)" "0.25" "0.6" hne hhex).1⟩

/-- C6: the coverage colour, the colour of each zone 1..4 and the mask colour are
the parse of the per-sensor override when that is set, otherwise the parse of
the global value when that is set, otherwise the built-in default as it is; and
an override that is a fill/stroke pair is returned unchanged. -/
theorem color_resolution_order {α : Type} [LinearOrderedField α] (H : Host α) (cfg : Config α)
    (sensor : SensorConfig α) :
    (some (covColor H cfg sensor)
      = if sensor.coverage_color.isSet then
          parseOverlayColor H.toStr sensor.coverage_color 0.25 0.6
        else if cfg.coverage_color.isSet then
          parseOverlayColor H.toStr cfg.coverage_color 0.25 0.6
        else some DEFAULT_COVERAGE_COLOR)
    ∧ (∀ z : Nat, 1 ≤ z → z ≤ 4 →
        some (zoneColor H cfg sensor z)
          = if (colorAt sensor.zone_colors z).isSet then
              parseOverlayColor H.toStr (colorAt sensor.zone_colors z) 0.10 0.4
            else if (colorAt cfg.zone_colors z).isSet then
              parseOverlayColor H.toStr (colorAt cfg.zone_colors z) 0.10 0.4
            else DEFAULT_ZONE_COLORS.get? (z - 1))
    ∧ (some (maskColor H cfg sensor)
      = if sensor.mask_color.isSet then parseOverlayColor H.toStr sensor.mask_color 0.12 0.3
        else if cfg.mask_color.isSet then parseOverlayColor H.toStr cfg.mask_color 0.12 0.3
        else some DEFAULT_MASK_COLOR)
    ∧ (∀ (fill stroke : String) (a b : JSNum α), fill ≠ "" → stroke ≠ "" →
        parseOverlayColor H.toStr (.obj (some fill) (some stroke)) a b
          = some ⟨fill, stroke⟩) := by
  refine ⟨resolve_chain _ _ _ _ _ _, ?_, resolve_chain _ _ _ _ _ _, ?_⟩
  · intro z h1 h4
    have hd : DEFAULT_ZONE_COLORS.get? (z - 1)
        = some (DEFAULT_ZONE_COLORS.getD (z - 1) ⟨"", ""⟩) := by
      have : z = 1 ∨ z = 2 ∨ z = 3 ∨ z = 4 := by omega
      rcases this with rfl | rfl | rfl | rfl <;> rfl
    rw [hd]
    exact resolve_chain _ _ _ _ _ _
  · intro fill stroke a b hf hs
    simp [parseOverlayColor, hf, hs]

/-- C6 at a sensor whose second zone colour is `#0af`, and at a pair override. -/
theorem color_resolution_order_witness :
    ((1 ≤ 2 ∧ 2 ≤ 4) ∧
      some (zoneColor ratHost (defaultConfig [zoneColoured]) zoneColoured 2)
        = some ⟨"rgba(0,170,255,0.1)", "rgba(0,170,255,0.4)"⟩)
    ∧ (("red" ≠ "" ∧ "blue" ≠ "") ∧
      parseOverlayColor ratHost.toStr (.obj (some "red") (some "blue")) 0.25 0.6
        = some ⟨"red", "blue"⟩) :=
  have hz := (color_resolution_order ratHost (defaultConfig [zoneColoured]) zoneColoured).2.1 2
    (by decide) (by decide)
  have hv : (if (colorAt zoneColoured.zone_colors 2).isSet then
        parseOverlayColor ratHost.toStr (colorAt zoneColoured.zone_colors 2) 0.10 0.4
      else if (colorAt (defaultConfig [zoneColoured]).zone_colors 2).isSet then
        parseOverlayColor ratHost.toStr (colorAt (defaultConfig [zoneColoured]).zone_colors 2)
          0.10 0.4
      else DEFAULT_ZONE_COLORS.get? (2 - 1))
      = some ⟨"rgba(0,170,255,0.1)", "rgba(0,170,255,0.4)"⟩ := by decide!
  ⟨⟨⟨by decide, by decide⟩, hz.trans hv⟩,
    ⟨⟨by decide, by decide⟩,
      (color_resolution_order ratHost (defaultConfig [zoneColoured]) zoneColoured).2.2.2
        "red" "blue" 0.25 0.6 (by decide) (by decide)⟩⟩

/-- C7, on the failing input: with both readings of target slot 1 in the state
`unavailable`, `Number` yields `NaN`, the slot is not skipped, and the render
pass appends the glow disc, the dot and the label at the centre `(NaN, NaN)`. -/
theorem unavailable_target_drawn :
    ratHost.Number "unavailable" = .nan
    ∧ (render ratHost (defaultConfig [sensorAt "s1" 1000 2000]) unavailableStates).gTargets
        = [.circle .nan .nan (.num 150) "#4CAF50", .circle .nan .nan (.num 100) "#4CAF50",
           .text .nan .nan "1" "white"] := by
  decide!

/-- C8: for every sensor and every target slot `t` in 1..3 whose two readings are
present, with the target layer shown: raw readings of exactly `(0, 0)` append no
shape, whatever the unit; every numeric pair other than `(0, 0)`, and so
`(0, 0.0001)`, appends the marker of the slot to the target layer. -/
theorem target_zero_sentinel {α : Type} [LinearOrderedField α] (H : Host α) (cfg : Config α)
    (states : States) (sensor : SensorConfig α) (t : Nat) (xEntity yEntity : Entity)
    (hshow : cfg.show_targets = true) (hs : sensor ∈ cfg.sensors) (ht : 1 ≤ t ∧ t ≤ 3)
    (hx : states ("sensor." ++ sensor.id ++ "_target_" ++ toString t ++ "_x") = some xEntity)
    (hy : states ("sensor." ++ sensor.id ++ "_target_" ++ toString t ++ "_y") = some yEntity) :
    (H.Number xEntity.state = .num 0 → H.Number yEntity.state = .num 0 →
        renderTarget H cfg states sensor t = [])
    ∧ (∀ x y : α, H.Number xEntity.state = .num x → H.Number yEntity.state = .num y →
        ¬ (x = 0 ∧ y = 0) →
        (∃ c, renderTarget H cfg states sensor t = targetMarker cfg sensor t c)
        ∧ renderTarget H cfg states sensor t ≠ []
        ∧ ∀ sh ∈ renderTarget H cfg states sensor t, sh ∈ (render H cfg states).gTargets)
    ∧ (H.Number xEntity.state = .num 0 → H.Number yEntity.state = .num 0.0001 →
        renderTarget H cfg states sensor t ≠ []) := by
  have nz : ∀ x y : α, H.Number xEntity.state = .num x → H.Number yEntity.state = .num y →
      ¬ (x = 0 ∧ y = 0) →
      ∃ c, renderTarget H cfg states sensor t = targetMarker cfg sensor t c := by
    intro x y ex ey hne
    refine ⟨_, renderTarget_active H cfg states sensor t xEntity yEntity hx hy ?_⟩
    rw [ex, ey]
    rintro ⟨h1, h2⟩
    exact hne ⟨JSNum.num.inj h1, JSNum.num.inj h2⟩
  refine ⟨?_, ?_, ?_⟩
  · intro ex ey
    simp [renderTarget, sensorPrefix, targetKey_x, targetKey_y, hx, hy, ex, ey, JSNum.isZero]
  · intro x y ex ey hne
    obtain ⟨c, h⟩ := nz x y ex ey hne
    exact ⟨⟨c, h⟩, by rw [h]; simp [targetMarker],
      fun sh hsh => mem_gTargets H cfg states sensor t hshow hs ht sh hsh⟩
  · intro ex ey
    obtain ⟨c, h⟩ := nz 0 0.0001 ex ey (by norm_num)
    rw [h]; simp [targetMarker]

/-- C8 at the rational host, for slot 1 reading `(0, 0.0001)`. -/
theorem target_zero_sentinel_witness :
    ((defaultConfig [sensorAt "s1" 1000 2000]).show_targets = true
      ∧ sensorAt "s1" 1000 2000 ∈ (defaultConfig [sensorAt "s1" 1000 2000]).sensors
      ∧ (1 ≤ 1 ∧ 1 ≤ 3)
      ∧ nearZeroStates "sensor.s1_target_1_x" = some ⟨"0", some "mm"⟩
      ∧ nearZeroStates "sensor.s1_target_1_y" = some ⟨"0.0001", some "mm"⟩
      ∧ ratHost.Number "0" = .num 0 ∧ ratHost.Number "0.0001" = .num 0.0001)
    ∧ renderTarget ratHost (defaultConfig [sensorAt "s1" 1000 2000]) nearZeroStates
        (sensorAt "s1" 1000 2000) 1 ≠ [] :=
  have h1 : (defaultConfig [sensorAt "s1" 1000 2000]).show_targets = true := rfl
  have h2 : sensorAt "s1" 1000 2000 ∈ (defaultConfig [sensorAt "s1" 1000 2000]).sensors := by
    simp [defaultConfig]
  have h3 : 1 ≤ 1 ∧ 1 ≤ 3 := by decide
  have h4 : nearZeroStates "sensor.s1_target_1_x" = some ⟨"0", some "mm"⟩ := by decide
  have h5 : nearZeroStates "sensor.s1_target_1_y" = some ⟨"0.0001", some "mm"⟩ := by decide
  have h6 : ratHost.Number "0" = .num 0 := by decide!
  have h7 : ratHost.Number "0.0001" = .num 0.0001 := by decide!
  ⟨⟨h1, h2, h3, h4, h5, h6, h7⟩,
    (target_zero_sentinel ratHost (defaultConfig [sensorAt "s1" 1000 2000]) nearZeroStates
      (sensorAt "s1" 1000 2000) 1 ⟨"0", some "mm"⟩ ⟨"0.0001", some "mm"⟩ h1 h2 h3 h4 h5).2.2
        h6 h7⟩

/-- C9, as stated, fails: with `target_1_x` in millimetres and both readings of
slot 2 in inches, reading `(10, 20)`, the marker of slot 2 is drawn at
`transformData(10, 20) = (1010, 1980)` and not at
`transformData(25.4 * 10, 25.4 * 20) = (1254, 1492)`. -/
theorem inch_conversion_counterexample :
    (mixedUnitStates "sensor.s1_target_1_x" = some ⟨"500", some "mm"⟩
      ∧ mixedUnitStates "sensor.s1_target_2_x" = some ⟨"10", some "in"⟩
      ∧ mixedUnitStates "sensor.s1_target_2_y" = some ⟨"20", some "in"⟩
      ∧ ratHost.Number "10" = .num 10 ∧ ratHost.Number "20" = .num 20)
    ∧ renderTarget ratHost (defaultConfig [sensorAt "s1" 1000 2000]) mixedUnitStates
          (sensorAt "s1" 1000 2000) 2
        = [.circle (.num 1010) (.num 1980) (.num 150) "#4CAF50",
           .circle (.num 1010) (.num 1980) (.num 100) "#4CAF50",
           .text (.num 1010) (.num 1980) "2" "white"]
    ∧ transformData ratHost.math
          (mountOf ratHost (defaultConfig [sensorAt "s1" 1000 2000]) mixedUnitStates
            (sensorAt "s1" 1000 2000)) (25.4 * .num 10) (25.4 * .num 20)
        = (.num 1254, .num 1492)
    ∧ ((.num 1010, .num 1980) : JSNum ℚ × JSNum ℚ) ≠ (.num 1254, .num 1492) := by
  decide!

/-- C9, amended: for every sensor and every target slot whose two readings `x`,
`y` are present and not both zero, the marker is drawn at
`transformData(25.4 * x, 25.4 * y)` when the reading `target_1_x` of the sensor
is present with the unit `in`, and at `transformData(x, y)` otherwise: the
conversion is decided once per sensor, by the unit of `target_1_x`. -/
theorem target_centre {α : Type} [LinearOrderedField α] (H : Host α) (cfg : Config α)
    (states : States) (sensor : SensorConfig α) (t : Nat) (xEntity yEntity : Entity)
    (hx : states ("sensor." ++ sensor.id ++ "_target_" ++ toString t ++ "_x") = some xEntity)
    (hy : states ("sensor." ++ sensor.id ++ "_target_" ++ toString t ++ "_y") = some yEntity)
    (hz : ¬ (H.Number xEntity.state = .num 0 ∧ H.Number yEntity.state = .num 0)) :
    ((∃ e, states ("sensor." ++ sensor.id ++ "_target_1_x") = some e
          ∧ e.unit_of_measurement = some "in") →
      renderTarget H cfg states sensor t
        = targetMarker cfg sensor t
            (transformData H.math (mountOf H cfg states sensor)
              (25.4 * H.Number xEntity.state) (25.4 * H.Number yEntity.state)))
    ∧ ((¬ ∃ e, states ("sensor." ++ sensor.id ++ "_target_1_x") = some e
          ∧ e.unit_of_measurement = some "in") →
      renderTarget H cfg states sensor t
        = targetMarker cfg sensor t
            (transformData H.math (mountOf H cfg states sensor)
              (H.Number xEntity.state) (H.Number yEntity.state))) := by
  have h := renderTarget_active H cfg states sensor t xEntity yEntity hx hy hz
  constructor
  · intro hin
    have hi : isInch states sensor = true := (isInch_eq_true_iff states sensor).mpr hin
    rw [h, hi, JSNum.mul_comm_num 25.4, JSNum.mul_comm_num 25.4]
    rfl
  · intro hin
    have hi : isInch states sensor = false := by
      cases hb : isInch states sensor
      · rfl
      · exact absurd ((isInch_eq_true_iff states sensor).mp hb) hin
    rw [h, hi]
    rfl

/-- C9, amended, at slot 2 of the store with mixed units. -/
theorem target_centre_witness :
    (mixedUnitStates "sensor.s1_target_2_x" = some ⟨"10", some "in"⟩
      ∧ mixedUnitStates "sensor.s1_target_2_y" = some ⟨"20", some "in"⟩
      ∧ ¬ (ratHost.Number "10" = .num 0 ∧ ratHost.Number "20" = .num 0)
      ∧ ¬ ∃ e, mixedUnitStates "sensor.s1_target_1_x" = some e
          ∧ e.unit_of_measurement = some "in")
    ∧ renderTarget ratHost (defaultConfig [sensorAt "s1" 1000 2000]) mixedUnitStates
          (sensorAt "s1" 1000 2000) 2
        = targetMarker (defaultConfig [sensorAt "s1" 1000 2000]) (sensorAt "s1" 1000 2000) 2
            (transformData ratHost.math
              (mountOf ratHost (defaultConfig [sensorAt "s1" 1000 2000]) mixedUnitStates
                (sensorAt "s1" 1000 2000))
              (ratHost.Number "10") (ratHost.Number "20")) :=
  have h1 : mixedUnitStates "sensor.s1_target_2_x" = some ⟨"10", some "in"⟩ := by decide
  have h2 : mixedUnitStates "sensor.s1_target_2_y" = some ⟨"20", some "in"⟩ := by decide
  have h3 : ¬ (ratHost.Number "10" = .num 0 ∧ ratHost.Number "20" = .num 0) := by decide!
  have h4 : ¬ ∃ e, mixedUnitStates "sensor.s1_target_1_x" = some e
      ∧ e.unit_of_measurement = some "in" := by
    rintro ⟨e, he, hu⟩
    have h0 : mixedUnitStates "sensor.s1_target_1_x" = some ⟨"500", some "mm"⟩ := by decide
    rw [h0] at he
    cases he
    exact absurd hu (by decide)
  ⟨⟨h1, h2, h3, h4⟩,
    (target_centre ratHost (defaultConfig [sensorAt "s1" 1000 2000]) mixedUnitStates
      (sensorAt "s1" 1000 2000) 2 ⟨"10", some "in"⟩ ⟨"20", some "in"⟩ h1 h2 h3).2 h4⟩

/-- C10, as stated, fails: at `maxDistance = 7500` the vertex list of the code has
seventeen vertices and starts at the origin, while the list of the claim has
sixteen and starts at the left edge point. -/
theorem arcVertices_counterexample :
    (arcVertices ratMath 7500).length = 17
    ∧ (arcVertices ratMath 7500).head? = some (0, 0)
    ∧ (specArcVertices ratMath 7500).length = 16
    ∧ arcVertices ratMath 7500 ≠ specArcVertices ratMath 7500 := by
  have h17 : (arcVertices ratMath 7500).length = 17 := by
    simp [arcVertices, arcX, arcY, COVERAGE_STEPS]
  have h16 : (specArcVertices ratMath 7500).length = 16 := by
    simp [specArcVertices]
  refine ⟨h17, by simp [arcVertices, arcX, arcY], h16, fun h => ?_⟩
  rw [h, h16] at h17
  exact absurd h17 (by decide)

/-- C10, amended: for every `maxDistance` the local-space vertex list of the
coverage polygon is the origin `(0, 0)` followed by the sixteen vertices of the
claim, in its order (left edge point, one point per step, mirrored edge point,
origin): seventeen vertices, each passed through `transformArc` (the host's
`sqrt` being exact at `0`). -/
theorem arcVertices_spec {α : Type} [LinearOrderedField α] (M : MathLib α) (maxDistance : α)
    (h0 : M.sqrt 0 = 0) :
    arcVertices M maxDistance = (0, 0) :: specArcVertices M maxDistance
      ∧ (arcVertices M maxDistance).length = 17
      ∧ ∀ s : Mount α, coveragePoints M s maxDistance
          = (arcVertices M maxDistance).map (fun v => transformArc M s v.1 v.2) := by
  have key : arcVertices M maxDistance = (0, 0) :: specArcVertices M maxDistance := by
    have hs := step_point M maxDistance h0
    simp only [arcVertices, arcX, arcY, specArcVertices, COVERAGE_STEPS, List.map,
      List.cons_append, List.nil_append, List.zip_cons_cons, List.zip_nil_right]
    simp only [stepX, stepY] at hs ⊢
    simp only [hs]
    simp
  refine ⟨key, ?_, fun s => rfl⟩
  rw [key]
  simp [specArcVertices]

/-- C10, amended, at the rational host and the default distance `7500`. -/
theorem arcVertices_spec_witness :
    ratMath.sqrt 0 = 0
      ∧ arcVertices ratMath 7500 = (0, 0) :: specArcVertices ratMath 7500 :=
  have h0 : ratMath.sqrt 0 = 0 := by simp [ratMath]
  ⟨h0, (arcVertices_spec ratMath 7500 h0).1⟩

/-- C11, as stated, fails: a snapshot whose only fingerprinted reading is a
maximum distance with the empty state and the snapshot with no reading differ in
exactly that reading, which changes the coverage polygon (distance `0` against
the default `7500`), yet both fingerprints are the empty string and pushing the
second after the first triggers no render. -/
theorem hass_change_gate_counterexample :
    ("number.s1_max_distance"
        ∈ (defaultConfig [sensorAt "s1" 1000 2000]).sensors.flatMap hashKeys
      ∧ (∀ k', k' ≠ "number.s1_max_distance" →
          reading emptyDistanceStates k' = reading noStates k')
      ∧ reading emptyDistanceStates "number.s1_max_distance" = some ""
      ∧ reading noStates "number.s1_max_distance" = none)
    ∧ (maxDistance ratHost emptyDistanceStates (sensorAt "s1" 1000 2000) = .num 0
      ∧ maxDistance ratHost noStates (sensorAt "s1" 1000 2000) = .num 7500
      ∧ (render ratHost (defaultConfig [sensorAt "s1" 1000 2000]) emptyDistanceStates).gCoverage
          ≠ (render ratHost (defaultConfig [sensorAt "s1" 1000 2000]) noStates).gCoverage)
    ∧ ((((Card.init (defaultConfig [sensorAt "s1" 1000 2000])).setHass ratHost
          distance450States).setHass ratHost emptyDistanceStates).renders = 2
      ∧ ((((Card.init (defaultConfig [sensorAt "s1" 1000 2000])).setHass ratHost
          distance450States).setHass ratHost emptyDistanceStates).setHass ratHost
            noStates).renders = 2) := by
  refine ⟨⟨by decide, ?_, by decide, by decide⟩, ⟨by decide!, by decide!, by decide!⟩,
    ⟨by decide, by decide⟩⟩
  intro k' hk'
  have : ¬ ("number.s1_max_distance" = k') := fun h => hk' h.symm
  simp [reading, emptyDistanceStates, noStates, statesOf, List.find?, this]

/-- C11, amended: pushing a snapshot a second time right after itself leaves the
card as it is and triggers no render; and for two snapshots that differ in
exactly one fingerprinted reading of a configured sensor (a target coordinate,
the installation angle, the maximum distance, a zone corner or a mask corner;
its state changed, or present in one snapshot only), pushing the second after
the first triggers exactly one render, of the second snapshot, unless that
reading is absent in one snapshot and the empty string in the other while no
other fingerprinted reading is present. -/
theorem hass_change_gate {α : Type} [LinearOrderedField α] (H : Host α) (card : Card α)
    (s s' : States) :
    (card.setHass H s).setHass H s = card.setHass H s
    ∧ ((card.setHass H s).setHass H s).renders = (card.setHass H s).renders
    ∧ ∀ k ∈ card.config.sensors.flatMap hashKeys,
        (∀ k' ∈ card.config.sensors.flatMap hashKeys, k' ≠ k →
          reading s k' = reading s' k') →
        reading s k ≠ reading s' k →
        ¬ ((∀ k' ∈ card.config.sensors.flatMap hashKeys, k' ≠ k → reading s k' = none)
            ∧ ((reading s k = some "" ∧ reading s' k = none)
              ∨ (reading s k = none ∧ reading s' k = some ""))) →
        ((card.setHass H s).setHass H s').renders = (card.setHass H s).renders + 1
          ∧ ((card.setHass H s).setHass H s').content
              = some (render H card.config s') := by
  obtain ⟨hl, hc, hh⟩ := setHass_lastStateHash H card s
  have same : (card.setHass H s).setHass H s = card.setHass H s :=
    setHass_fixed H _ s (by rw [hl, hc]) hh
  refine ⟨same, by rw [same], ?_⟩
  intro k hk hoff hne hdeg
  have hhash : computeStateHash (card.setHass H s).config (some s')
      ≠ (card.setHass H s).lastStateHash := by
    rw [hl, hc]
    exact fun h => computeStateHash_ne card.config s s' k hk hoff hne hdeg h.symm
  have := setHass_of_hash_ne H (card.setHass H s) s' hhash
  rw [hc] at this
  exact this

/-- C11, amended, at a maximum distance that changes from `450` to `600`. -/
theorem hass_change_gate_witness :
    ("number.s1_max_distance"
        ∈ (Card.init (defaultConfig [sensorAt "s1" 1000 2000])).config.sensors.flatMap hashKeys
      ∧ (∀ k' ∈ (Card.init (defaultConfig [sensorAt "s1" 1000 2000])).config.sensors.flatMap
            hashKeys, k' ≠ "number.s1_max_distance" →
          reading distance450States k' = reading distance600States k')
      ∧ reading distance450States "number.s1_max_distance"
          ≠ reading distance600States "number.s1_max_distance")
    ∧ (((Card.init (defaultConfig [sensorAt "s1" 1000 2000])).setHass ratHost
          distance450States).setHass ratHost distance600States).renders
        = ((Card.init (defaultConfig [sensorAt "s1" 1000 2000])).setHass ratHost
            distance450States).renders + 1 :=
  have h1 : "number.s1_max_distance"
      ∈ (Card.init (defaultConfig [sensorAt "s1" 1000 2000])).config.sensors.flatMap
          hashKeys := by decide
  have h2 : ∀ k' ∈ (Card.init (defaultConfig [sensorAt "s1" 1000 2000])).config.sensors.flatMap
      hashKeys, k' ≠ "number.s1_max_distance" →
        reading distance450States k' = reading distance600States k' := by
    intro k' _ hk'
    have : ¬ ("number.s1_max_distance" = k') := fun h => hk' h.symm
    simp [reading, distance450States, distance600States, statesOf, List.find?, this]
  have h3 : reading distance450States "number.s1_max_distance"
      ≠ reading distance600States "number.s1_max_distance" := by decide
  have h4 : ¬ ((∀ k' ∈ (Card.init (defaultConfig [sensorAt "s1" 1000 2000])).config.sensors.flatMap
      hashKeys, k' ≠ "number.s1_max_distance" → reading distance450States k' = none)
      ∧ ((reading distance450States "number.s1_max_distance" = some ""
          ∧ reading distance600States "number.s1_max_distance" = none)
        ∨ (reading distance450States "number.s1_max_distance" = none
          ∧ reading distance600States "number.s1_max_distance" = some ""))) := by
    rintro ⟨-, ⟨h, -⟩ | ⟨h, -⟩⟩ <;> exact absurd h (by decide)
  ⟨⟨h1, h2, h3⟩,
    ((hass_change_gate ratHost (Card.init (defaultConfig [sensorAt "s1" 1000 2000]))
      distance450States distance600States).2.2 "number.s1_max_distance" h1 h2 h3 h4).1⟩

/-- C12, as stated, fails in the arithmetic of the host.  At the default
`maxDistance = 7500` the step `1000` gives the vertex `(1000, sqrt 55250000)`,
every operation before the root being exact; `55250000 = 500² · 221` is the
square of no rational number, so whatever number `sqrt` returns the vertex is
off the circle of radius `7500`, and with the binary64 root the sum
`x * x + y * y` evaluated by the host differs from `maxDistance * maxDistance`.
At the positive `maxDistance` read from the state `1e-201` (times ten) the product
`maxDistance * maxDistance` underflows to `0`: for every step the value under
the root is not positive, the branch that clamps to zero is taken and the
vertex has `y = 0`. -/
theorem arc_on_circle_counterexample :
    (∀ M : MathLib Dbl,
        (stepX (⟨7500⟩ : Dbl) 1000, stepY M ⟨7500⟩ 1000) ∈ arcVertices M ⟨7500⟩
        ∧ stepX (⟨7500⟩ : Dbl) 1000 = ⟨1000⟩
        ∧ stepY M ⟨7500⟩ 1000 = M.sqrt ⟨55250000⟩
        ∧ (stepX (⟨7500⟩ : Dbl) 1000).val * (stepX (⟨7500⟩ : Dbl) 1000).val
            + (stepY M ⟨7500⟩ 1000).val * (stepY M ⟨7500⟩ 1000).val
          ≠ (7500 : ℚ) * 7500)
    ∧ stepX (⟨7500⟩ : Dbl) 1000 * stepX (⟨7500⟩ : Dbl) 1000
          + stepY dblMath ⟨7500⟩ 1000 * stepY dblMath ⟨7500⟩ 1000
        ≠ (⟨7500⟩ : Dbl) * ⟨7500⟩
    ∧ (0 : Dbl) < (⟨roundDouble (1 / 10 ^ 201)⟩ : Dbl) * 10
    ∧ ∀ M : MathLib Dbl, ∀ step ∈ COVERAGE_STEPS,
        ¬ ((0 : Dbl) < (⟨roundDouble (1 / 10 ^ 201)⟩ : Dbl) * 10 * ((⟨roundDouble (1 / 10 ^ 201)⟩ : Dbl) * 10)
            - stepX ((⟨roundDouble (1 / 10 ^ 201)⟩ : Dbl) * 10) step
              * stepX ((⟨roundDouble (1 / 10 ^ 201)⟩ : Dbl) * 10) step)
        ∧ stepY M ((⟨roundDouble (1 / 10 ^ 201)⟩ : Dbl) * 10) step = 0 := by
  have hx : stepX (⟨7500⟩ : Dbl) 1000 = ⟨1000⟩ := by decide!
  have hv : (⟨7500⟩ : Dbl) * ⟨7500⟩ - stepX (⟨7500⟩ : Dbl) 1000 * stepX (⟨7500⟩ : Dbl) 1000
      = ⟨55250000⟩ := by decide!
  have hy : ∀ M : MathLib Dbl, stepY M ⟨7500⟩ 1000 = M.sqrt ⟨55250000⟩ := by
    intro M
    simp only [stepY]
    rw [hv, if_pos (by decide!)]
  have hclamp : ∀ step ∈ COVERAGE_STEPS,
      ¬ ((0 : Dbl) < (⟨roundDouble (1 / 10 ^ 201)⟩ : Dbl) * 10 * ((⟨roundDouble (1 / 10 ^ 201)⟩ : Dbl) * 10)
          - stepX ((⟨roundDouble (1 / 10 ^ 201)⟩ : Dbl) * 10) step
            * stepX ((⟨roundDouble (1 / 10 ^ 201)⟩ : Dbl) * 10) step) := by decide!
  refine ⟨fun M => ⟨?_, hx, hy M, ?_⟩, by decide!, by decide!, fun M step hs => ⟨hclamp step hs, ?_⟩⟩
  · rw [arcVertices_split_any]
    exact List.mem_cons_of_mem _ (List.mem_append_left _ (List.mem_append_left _
      (List.mem_cons_of_mem _ (List.mem_map.2 ⟨1000, by decide, rfl⟩))))
  · rw [hy M, hx]
    intro h
    have h2 : (1000 : ℚ) * 1000
        + (M.sqrt ⟨55250000⟩).val * (M.sqrt ⟨55250000⟩).val = 7500 * 7500 := h
    exact no_rational_root (M.sqrt ⟨55250000⟩).val (by linarith)
  · simp only [stepY]
    rw [if_neg (hclamp step hs)]

/-- C12, amended: in binary64, for every `maxDistance` from `1e-100` to `1e100`
(where `maxDistance * maxDistance`, the largest intermediate result, stays
below `2^1000` and nothing underflows), with `sin 60°` in `[4/5, 1]`,
`cos 60°` in `[1/4, 1]`, `sin² + cos²` within `2^-51` of `1` and a `sqrt` that
is non-negative and whose square is within `3 · 2^-53` (relative) of its
argument at the thirteen values the loop passes to it: the fifteen vertices
between the two origins lie on the circle of radius `maxDistance` up to a
relative error `2^-50` of `maxDistance²`, with `y ≥ 0` and `|x|` at most the
computed `maxDistance * sin 60°`; for every step the value under the square
root is strictly positive and the branch that clamps to zero is not taken. -/
theorem arc_in_doubles (M : MathLib Dbl) (maxDistance : Dbl)
    (hlo : 1 / 10 ^ 100 ≤ maxDistance.val) (hhi : maxDistance.val ≤ 10 ^ 100)
    (hsin : 4 / 5 ≤ (M.sin (M.PI / 180 * 60)).val ∧ (M.sin (M.PI / 180 * 60)).val ≤ 1)
    (hcos : 1 / 4 ≤ (M.cos (M.PI / 180 * 60)).val ∧ (M.cos (M.PI / 180 * 60)).val ≤ 1)
    (hunit : |(M.sin (M.PI / 180 * 60)).val * (M.sin (M.PI / 180 * 60)).val
        + (M.cos (M.PI / 180 * 60)).val * (M.cos (M.PI / 180 * 60)).val - 1| ≤ 1 / 2 ^ 51)
    (hsqrt : ∀ step ∈ COVERAGE_STEPS,
      0 ≤ (M.sqrt (maxDistance * maxDistance
            - stepX maxDistance step * stepX maxDistance step)).val
      ∧ |(M.sqrt (maxDistance * maxDistance
            - stepX maxDistance step * stepX maxDistance step)).val
          * (M.sqrt (maxDistance * maxDistance
            - stepX maxDistance step * stepX maxDistance step)).val
          - (maxDistance * maxDistance
            - stepX maxDistance step * stepX maxDistance step).val|
        ≤ 3 * (1 / 2 ^ 53) * (maxDistance * maxDistance
            - stepX maxDistance step * stepX maxDistance step).val) :
    (∃ pts : List (Dbl × Dbl), pts.length = 15
        ∧ arcVertices M maxDistance = (0, 0) :: (pts ++ [(0, 0)])
        ∧ ∀ v ∈ pts,
            |v.1.val * v.1.val + v.2.val * v.2.val - maxDistance.val * maxDistance.val|
                ≤ 1 / 2 ^ 50 * (maxDistance.val * maxDistance.val)
            ∧ 0 ≤ v.2.val
            ∧ |v.1.val| ≤ (maxDistance * M.sin (M.PI / 180 * 60)).val)
    ∧ (∀ step ∈ COVERAGE_STEPS,
        (0 : Dbl) < maxDistance * maxDistance
            - stepX maxDistance step * stepX maxDistance step
        ∧ stepY M maxDistance step
            = M.sqrt (maxDistance * maxDistance
                - stepX maxDistance step * stepX maxDistance step))
    ∧ (maxDistance * maxDistance).val ≤ 2 ^ 1000 := by
  have hdpos : 0 < maxDistance.val := lt_of_lt_of_le (by positivity) hlo
  obtain ⟨hx34, hy0, hedge⟩ := edge_rounded maxDistance.val _ _ hlo hsin hcos hunit
  -- the value under the root, for every step
  have hval : ∀ step ∈ COVERAGE_STEPS,
      (maxDistance * maxDistance - stepX maxDistance step * stepX maxDistance step).val
        = roundDouble (roundDouble (maxDistance.val * maxDistance.val)
            - roundDouble (roundDouble ((step : ℚ) * roundDouble (maxDistance.val / 7500))
                * roundDouble ((step : ℚ) * roundDouble (maxDistance.val / 7500)))) := by
    intro step hs
    show roundDouble (roundDouble (maxDistance.val * maxDistance.val)
        - roundDouble ((stepX maxDistance step).val * (stepX maxDistance step).val)) = _
    rw [Dbl.stepX_val maxDistance step hs]
  have hstep : ∀ step ∈ COVERAGE_STEPS,
      (0 : Dbl) < maxDistance * maxDistance
          - stepX maxDistance step * stepX maxDistance step
      ∧ stepY M maxDistance step
          = M.sqrt (maxDistance * maxDistance
              - stepX maxDistance step * stepX maxDistance step) := by
    intro step hs
    obtain ⟨-, hV, -⟩ := step_rounded maxDistance.val (step : ℚ) hlo (Dbl.val_step step hs).2
    have hpos : (0 : Dbl) < maxDistance * maxDistance
        - stepX maxDistance step * stepX maxDistance step := by
      show (0 : ℚ) < (maxDistance * maxDistance
        - stepX maxDistance step * stepX maxDistance step).val
      rw [hval step hs]
      have : 0 < 1 / 3 * (maxDistance.val * maxDistance.val) := by positivity
      linarith
    exact ⟨hpos, by simp only [stepY]; rw [if_pos hpos]⟩
  refine ⟨⟨_, ?_, arcVertices_split_any M maxDistance, ?_⟩, hstep, ?_⟩
  · simp [COVERAGE_STEPS]
  · intro v hv
    simp only [List.mem_append, List.mem_cons, List.mem_map, List.mem_singleton,
      List.not_mem_nil, or_false] at hv
    rcases hv with (rfl | ⟨step, hmem, rfl⟩) | rfl
    · exact ⟨hedge, hy0, by
        show |roundDouble (maxDistance.val * (M.sin (M.PI / 180 * 60)).val)| ≤ _
        rw [abs_of_nonneg (le_trans (by positivity) hx34)]
        exact le_refl _⟩
    · obtain ⟨hsx, hV, hY⟩ :=
        step_rounded maxDistance.val (step : ℚ) hlo (Dbl.val_step step hmem).2
      obtain ⟨hpos, hyeq⟩ := hstep step hmem
      obtain ⟨hr0, hracc⟩ := hsqrt step hmem
      rw [hval step hmem] at hracc
      have hc := hY _ hracc
      refine ⟨?_, ?_, ?_⟩
      · show |(stepX maxDistance step).val * (stepX maxDistance step).val
            + (stepY M maxDistance step).val * (stepY M maxDistance step).val
            - maxDistance.val * maxDistance.val| ≤ _
        rw [hyeq, Dbl.stepX_val maxDistance step hmem]
        exact hc
      · show 0 ≤ (stepY M maxDistance step).val
        rw [hyeq]; exact hr0
      · show |(stepX maxDistance step).val| ≤ _
        rw [Dbl.stepX_val maxDistance step hmem]
        exact hsx.trans hx34
    · refine ⟨?_, hy0, ?_⟩
      · show |roundDouble (-maxDistance.val * (M.sin (M.PI / 180 * 60)).val)
            * roundDouble (-maxDistance.val * (M.sin (M.PI / 180 * 60)).val)
            + roundDouble (maxDistance.val * (M.cos (M.PI / 180 * 60)).val)
              * roundDouble (maxDistance.val * (M.cos (M.PI / 180 * 60)).val)
            - maxDistance.val * maxDistance.val| ≤ _
        rw [neg_mul, roundDouble_neg, neg_mul_neg]
        exact hedge
      · show |roundDouble (-maxDistance.val * (M.sin (M.PI / 180 * 60)).val)| ≤ _
        rw [neg_mul, roundDouble_neg, abs_neg,
          abs_of_nonneg (le_trans (by positivity) hx34)]
        exact le_refl _
  · show roundDouble (maxDistance.val * maxDistance.val) ≤ 2 ^ 1000
    have hAlo : (1 : ℚ) / 10 ^ 300 ≤ maxDistance.val * maxDistance.val :=
      calc (1 : ℚ) / 10 ^ 300 ≤ 1 / 10 ^ 100 * (1 / 10 ^ 100) := by norm_num
        _ ≤ maxDistance.val * maxDistance.val := mul_le_mul hlo hlo (by positivity) hdpos.le
    have hb := (roundDouble_bounds _ hAlo).2
    have hAhi : maxDistance.val * maxDistance.val ≤ 10 ^ 100 * 10 ^ 100 :=
      mul_le_mul hhi hhi hdpos.le (by positivity)
    have : (10 : ℚ) ^ 100 * 10 ^ 100 * (1 + 1 / 2 ^ 53) ≤ 2 ^ 1000 := by norm_num
    calc roundDouble (maxDistance.val * maxDistance.val)
        ≤ maxDistance.val * maxDistance.val * (1 + 1 / 2 ^ 53) := hb
      _ ≤ 10 ^ 100 * 10 ^ 100 * (1 + 1 / 2 ^ 53) :=
          mul_le_mul_of_nonneg_right hAhi (by norm_num)
      _ ≤ 2 ^ 1000 := this

/-- C12, amended, at the default `maxDistance = 7500` with the binary64 `Math`
object `dblMath`, whose `sin`, `cos` and `sqrt` satisfy the hypotheses. -/
theorem arc_in_doubles_witness :
    (∃ pts : List (Dbl × Dbl), pts.length = 15
        ∧ arcVertices dblMath ⟨7500⟩ = (0, 0) :: (pts ++ [(0, 0)])
        ∧ ∀ v ∈ pts,
            |v.1.val * v.1.val + v.2.val * v.2.val - (7500 : ℚ) * 7500|
                ≤ 1 / 2 ^ 50 * ((7500 : ℚ) * 7500)
            ∧ 0 ≤ v.2.val
            ∧ |v.1.val| ≤ ((⟨7500⟩ : Dbl) * dblMath.sin (dblMath.PI / 180 * 60)).val)
    ∧ (∀ step ∈ COVERAGE_STEPS,
        (0 : Dbl) < (⟨7500⟩ : Dbl) * ⟨7500⟩ - stepX ⟨7500⟩ step * stepX ⟨7500⟩ step
        ∧ stepY dblMath ⟨7500⟩ step
            = dblMath.sqrt ((⟨7500⟩ : Dbl) * ⟨7500⟩ - stepX ⟨7500⟩ step * stepX ⟨7500⟩ step))
    ∧ ((⟨7500⟩ : Dbl) * ⟨7500⟩).val ≤ 2 ^ 1000 :=
  arc_in_doubles dblMath ⟨7500⟩ (by decide!) (by decide!) (by decide!) (by decide!)
    (by decide!) (by decide!)

end PresenceMinimap
